import Mathlib

/-!
Verification development for the Go package `ratelimiter` (src/limiter.go):
a Redis-backed fixed-window rate limiter with three ceilings
(requests per minute, tokens per minute, requests per day).

Modelling conventions.

* The Redis store is modelled as a partial map from key strings to value
  strings (`Store`).  The pipeline of three `Get` commands is modelled by
  reading the three keys directly; a missed `Get` yields `none`, and
  `redis.Cmd.Val()` of a missed `Get` is the empty string (`valOrEmpty`).
  A store-communication failure of a pipeline `Exec` (an error other than
  `redis.Nil`) is an environment input; it is passed to each operation as
  an explicit `Option String` argument holding the cause (`none` = the
  round trip succeeded).
* `INCR`/`INCRBY` create an absent key at the delta, and on a present key
  re-parse the stored decimal string; a stored value that is not a decimal
  integer makes the command fail, which the pipeline `Exec` reports as an
  error.  `EXPIRE` only sets a time-to-live, which no claim observes
  (each window has its own key), so it is the identity on the store.
  Out-of-int64 overflow of `INCRBY` is not modelled; every theorem below
  that touches the write path bounds its counters far below 2^63.
* Go `time.Time` is modelled at one-second granularity by `GoTime`:
  `abs` is the number of seconds since the zero time (January 1, year 1,
  00:00:00 UTC), and `offset` is the zone offset east of UTC in seconds.
  `Truncate` operates on `abs` (per its documentation it ignores the
  location), while `Format` renders the local civil time `abs + offset`.
  The civil (proleptic Gregorian) calendar used by `Format` is modelled
  by `dateOfDays`, day-by-day from January 1 of year 1, and the digit
  rendering of `Format` (zero-padded to the layout width, wider numbers
  keeping all their digits) by `goAppendInt`.  `time.Duration` results
  are in whole seconds, as `Int`.
* Go `int` and the counters are modelled as `Int`; the `tokens` argument
  of `CheckAndIncrement` has Go type `int32`, so theorems that need it
  assume it lies in the int32 range.
-/

namespace Ratelimiter

/-! ## Decimal digit strings -/

/-- The decimal digit character for a digit value (Go writes 48 + d). -/
def digitChar (d : Nat) : Char :=
  match d with
  | 0 => '0'
  | 1 => '1'
  | 2 => '2'
  | 3 => '3'
  | 4 => '4'
  | 5 => '5'
  | 6 => '6'
  | 7 => '7'
  | 8 => '8'
  | _ => '9'

/-- The decimal rendering of `n`, zero-padded (or truncated) to exactly `w`
digits, most significant first. -/
def padDigits : Nat → Nat → List Char
  | 0, _ => []
  | w + 1, n => padDigits w (n / 10) ++ [digitChar (n % 10)]

/-- Number of decimal digits of `n` (fuel-based structural recursion so
that it evaluates by kernel reduction; equal to `Nat.log 10 n + 1`). -/
def numDigitsAux : Nat → Nat → Nat
  | 0, _ => 1
  | fuel + 1, n => if n < 10 then 1 else numDigitsAux fuel (n / 10) + 1

/-- Number of decimal digits of `n`. -/
def numDigits (n : Nat) : Nat := numDigitsAux n n

/-- Models `appendInt` of the Go `time` package (used by `Format` for the
numeric layout fields): the decimal digits of `n`, zero-padded to width `w`,
keeping all digits when `n` needs more than `w`. -/
def goAppendInt (n w : Nat) : String :=
  ⟨padDigits (max w (numDigits n)) n⟩

/-- All decimal digits of `n` (width taken from its magnitude). -/
def natToDecimal (n : Nat) : String :=
  ⟨padDigits (numDigits n) n⟩

/-- Decimal rendering of an integer, as Redis stores counters and as Go
prints `%d`. -/
def intToDecimal (n : Int) : String :=
  if n < 0 then "-" ++ natToDecimal n.natAbs else natToDecimal n.toNat

/-! ## The civil calendar of Go `time.Format`

Go `Format` derives year, month and day from the count of days since the
zero time (January 1 of year 1) on the proleptic Gregorian calendar; this
calendar is modelled here by iterating a successor-day function from that
origin. -/

structure Date where
  year : Nat
  month : Nat
  day : Nat
deriving DecidableEq, Repr

/-- Gregorian leap-year rule (Go `isLeap`). -/
def isLeap (y : Nat) : Bool :=
  y % 4 == 0 && (y % 100 != 0 || y % 400 == 0)

/-- Number of days in a month of a given year. -/
def daysInMonth (y m : Nat) : Nat :=
  if m = 2 then (if isLeap y then 29 else 28)
  else if m = 4 ∨ m = 6 ∨ m = 9 ∨ m = 11 then 30
  else 31

/-- The day after a given civil date. -/
def nextDate (d : Date) : Date :=
  if d.day < daysInMonth d.year d.month then ⟨d.year, d.month, d.day + 1⟩
  else if d.month < 12 then ⟨d.year, d.month + 1, 1⟩
  else ⟨d.year + 1, 1, 1⟩

/-- The civil date that lies `n` days after January 1 of year 1 (the date
Go `Format` renders for absolute day number `n`). -/
def dateOfDays : Nat → Date
  | 0 => ⟨1, 1, 1⟩
  | n + 1 => nextDate (dateOfDays n)

/-- The layout fragment 2006-01-02 of Go `Format`: four-digit year,
two-digit month, two-digit day. -/
def fmtDate (d : Date) : String :=
  goAppendInt d.year 4 ++ "-" ++ goAppendInt d.month 2 ++ "-" ++ goAppendInt d.day 2

/-! ## Time -/

/-- A Go `time.Time` at one-second granularity: `abs` counts seconds since
the zero time (January 1, year 1, 00:00:00 UTC) and `offset` is the zone
offset east of UTC in seconds. -/
structure GoTime where
  abs : Nat
  offset : Int
deriving DecidableEq, Repr

/-- Local (zone-adjusted) seconds since the zero time, as an integer. -/
def GoTime.lsec (t : GoTime) : Int := (t.abs : Int) + t.offset

/-- Local seconds clamped to `Nat`; the model is faithful to Go for times
with `0 ≤ lsec` (every realistic time). -/
def GoTime.lsecN (t : GoTime) : Nat := t.lsec.toNat

/-- `now.Format ("2006-01-02")`: the local civil date. -/
def GoTime.formatDay (t : GoTime) : String :=
  fmtDate (dateOfDays (t.lsecN / 86400))

/-- `now.Format ("2006-01-02:15:04")`: local civil date, a colon, the
two-digit 24h hour, a colon, the two-digit minute (Go `absClock`). -/
def GoTime.formatMinute (t : GoTime) : String :=
  fmtDate (dateOfDays (t.lsecN / 86400)) ++ ":" ++
    goAppendInt (t.lsecN % 86400 / 3600) 2 ++ ":" ++
    goAppendInt (t.lsecN % 86400 % 3600 / 60) 2

/-- `time.Until (now.Truncate (time.Minute).Add (time.Minute))` in seconds:
`Truncate` rounds `abs` down to a multiple of 60 irrespective of the zone. -/
def untilNextMinute (t : GoTime) : Int :=
  ((t.abs / 60 * 60 + 60 : Nat) : Int) - (t.abs : Int)

/-- `time.Until (now.Truncate (24 * time.Hour).Add (24 * time.Hour))` in
seconds: `Truncate` rounds `abs` down to a multiple of 86400 irrespective
of the zone, so this boundary is anchored at UTC midnight. -/
def untilNextDay (t : GoTime) : Int :=
  ((t.abs / 86400 * 86400 + 86400 : Nat) : Int) - (t.abs : Int)

/-! ## The store -/

/-- The Redis keyspace: a partial map from keys to stored strings. -/
def Store : Type := String → Option String

/-- Point update of the keyspace. -/
def Store.update (st : Store) (k : String) (v : Option String) : Store :=
  fun q => if q = k then v else st q

/-- `redis.Cmd.Val()` of a pipelined `Get`: the stored string, or the empty
string when the key was absent (the `redis.Nil` case). -/
def valOrEmpty : Option String → String
  | none => ""
  | some s => s

/-! ## strconv.Atoi -/

/-- The value of a decimal digit character, if it is one. -/
def digitVal? (c : Char) : Option Nat :=
  if '0' ≤ c ∧ c ≤ '9' then some (c.toNat - 48) else none

/-- Accumulate decimal digits left to right; fails on a non-digit. -/
def parseDigitsAux : List Char → Nat → Option Nat
  | [], acc => some acc
  | c :: cs, acc =>
    match digitVal? c with
    | some d => parseDigitsAux cs (acc * 10 + d)
    | none => none

/-- A non-empty all-digit string parsed as a natural number. -/
def parseDigits (l : List Char) : Option Nat :=
  match l with
  | [] => none
  | _ => parseDigitsAux l 0

/-- Models Go `strconv.Atoi` (= `ParseInt` base 10, 64-bit): an optional
sign, then one or more decimal digits, rejecting values outside the int64
range; anything else is an error (`none`). -/
def goAtoi (s : String) : Option Int :=
  match s.data with
  | [] => none
  | c :: rest =>
    if c = '-' then
      match parseDigits rest with
      | some n => if (n : Int) ≤ 2 ^ 63 then some (-(n : Int)) else none
      | none => none
    else if c = '+' then
      match parseDigits rest with
      | some n => if (n : Int) ≤ 2 ^ 63 - 1 then some ((n : Int)) else none
      | none => none
    else
      match parseDigits (c :: rest) with
      | some n => if (n : Int) ≤ 2 ^ 63 - 1 then some ((n : Int)) else none
      | none => none

/-- src/limiter.go `parseIntOrZero`: the empty string and any string that
`strconv.Atoi` rejects read as zero. -/
def parseIntOrZero (s : String) : Int :=
  if s = "" then 0
  else
    match goAtoi s with
    | none => 0
    | some v => v

/-! ## Redis write commands -/

/-- `INCRBY key delta` (and `INCR` with delta 1): creates an absent key at
the delta, re-parses a present value as a decimal int and errors (leaving
the key unchanged) when it does not parse. -/
def redisIncrBy (st : Store) (key : String) (delta : Int) :
    Option String × Store :=
  match st key with
  | none => (none, st.update key (some (intToDecimal delta)))
  | some s =>
    match goAtoi s with
    | some n => (none, st.update key (some (intToDecimal (n + delta))))
    | none => (some "ERR value is not an integer or out of range", st)

/-- The write pipeline of `CheckAndIncrement`: `INCR minuteKey`,
`INCRBY minuteTokenKey tokens`, `INCR dayKey` (each followed by an
`EXPIRE`, which no claim observes and which is the identity here).  The
commands run in order even after an earlier one failed; `Exec` reports the
first per-command error. -/
def writePipeline (st : Store) (minuteKey minuteTokenKey dayKey : String)
    (tokens : Int) : Option String × Store :=
  let r1 := redisIncrBy st minuteKey 1
  let r2 := redisIncrBy r1.2 minuteTokenKey tokens
  let r3 := redisIncrBy r2.2 dayKey 1
  (r1.1 <|> r2.1 <|> r3.1, r3.2)

/-! ## The rate limiter -/

structure Config where
  RequestsPerMinute : Int
  TokensPerMinute : Int
  RequestsPerDay : Int
deriving DecidableEq, Repr

structure RateLimiter where
  config : Config
  pfx : String
deriving DecidableEq, Repr

structure CheckResult where
  Allowed : Bool
  CurrentRequests : Int
  CurrentTokens : Int
  CurrentDayReqs : Int
  ResetMinute : Int
  ResetDay : Int
  RejectionReason : String
deriving DecidableEq, Repr

/-- src/limiter.go `New`: fixes the key namespace (Go field named with the
reserved word p r e f i x, called `pfx` here). -/
def New (config : Config) : RateLimiter :=
  { config := config, pfx := "gemini:ratelimit" }

/-- The minute-requests key derived inside `CheckAndIncrement`. -/
def checkMinuteKey (rl : RateLimiter) (now : GoTime) : String :=
  rl.pfx ++ ":minute:" ++ now.formatMinute

/-- The minute-tokens key derived inside `CheckAndIncrement`. -/
def checkMinuteTokenKey (rl : RateLimiter) (now : GoTime) : String :=
  rl.pfx ++ ":tokens:minute:" ++ now.formatMinute

/-- The day-requests key derived inside `CheckAndIncrement`. -/
def checkDayKey (rl : RateLimiter) (now : GoTime) : String :=
  rl.pfx ++ ":day:" ++ now.formatDay

/-- src/limiter.go `CheckAndIncrement`.  `readErr` and `writeErr` are the
communication outcomes of the two pipeline `Exec` round trips (`none` =
reachable and executed); `now` is the instant `time.Now()` returned. -/
def CheckAndIncrement (rl : RateLimiter) (now : GoTime) (tokens : Int)
    (st : Store) (readErr writeErr : Option String) :
    Except String (CheckResult × Store) :=
  let minuteKey := checkMinuteKey rl now
  let minuteTokenKey := checkMinuteTokenKey rl now
  let dayKey := checkDayKey rl now
  match readErr with
  | some e => Except.error ("failed to get current values: " ++ e)
  | none =>
    let currentMinuteReqs := parseIntOrZero (valOrEmpty (st minuteKey))
    let currentMinuteTokens := parseIntOrZero (valOrEmpty (st minuteTokenKey))
    let currentDayReqs := parseIntOrZero (valOrEmpty (st dayKey))
    let result : CheckResult :=
      { Allowed := true
        CurrentRequests := currentMinuteReqs
        CurrentTokens := currentMinuteTokens
        CurrentDayReqs := currentDayReqs
        ResetMinute := 0
        ResetDay := 0
        RejectionReason := "" }
    if currentMinuteReqs ≥ rl.config.RequestsPerMinute then
      Except.ok ({ result with
        Allowed := false
        RejectionReason := "requests per minute limit exceeded (" ++
          intToDecimal currentMinuteReqs ++ "/" ++
          intToDecimal rl.config.RequestsPerMinute ++ ")"
        ResetMinute := untilNextMinute now }, st)
    else if currentMinuteTokens + tokens > rl.config.TokensPerMinute then
      Except.ok ({ result with
        Allowed := false
        RejectionReason := "tokens per minute limit exceeded (" ++
          intToDecimal currentMinuteTokens ++ "+" ++ intToDecimal tokens ++
          " > " ++ intToDecimal rl.config.TokensPerMinute ++ ")"
        ResetMinute := untilNextMinute now }, st)
    else if currentDayReqs ≥ rl.config.RequestsPerDay then
      Except.ok ({ result with
        Allowed := false
        RejectionReason := "requests per day limit exceeded (" ++
          intToDecimal currentDayReqs ++ "/" ++
          intToDecimal rl.config.RequestsPerDay ++ ")"
        ResetDay := untilNextDay now }, st)
    else
      match writeErr with
      | some e => Except.error ("failed to increment counters: " ++ e)
      | none =>
        match writePipeline st minuteKey minuteTokenKey dayKey tokens with
        | (some e, _) => Except.error ("failed to increment counters: " ++ e)
        | (none, st2) =>
          Except.ok ({ result with
            CurrentRequests := currentMinuteReqs + 1
            CurrentTokens := currentMinuteTokens + tokens
            CurrentDayReqs := currentDayReqs + 1
            ResetMinute := untilNextMinute now
            ResetDay := untilNextDay now }, st2)

/-- The minute-requests key derived inside `GetCurrentUsage`. -/
def usageMinuteKey (rl : RateLimiter) (now : GoTime) : String :=
  rl.pfx ++ ":minute:" ++ now.formatMinute

/-- The minute-tokens key derived inside `GetCurrentUsage`. -/
def usageMinuteTokenKey (rl : RateLimiter) (now : GoTime) : String :=
  rl.pfx ++ ":tokens:minute:" ++ now.formatMinute

/-- The day-requests key derived inside `GetCurrentUsage`. -/
def usageDayKey (rl : RateLimiter) (now : GoTime) : String :=
  rl.pfx ++ ":day:" ++ now.formatDay

/-- src/limiter.go `GetCurrentUsage`: a pipeline of three `Get` commands
only, so the store comes back unchanged; `Allowed` is left at the Go zero
value `false`. -/
def GetCurrentUsage (rl : RateLimiter) (now : GoTime) (st : Store)
    (readErr : Option String) : Except String (CheckResult × Store) :=
  let minuteKey := usageMinuteKey rl now
  let minuteTokenKey := usageMinuteTokenKey rl now
  let dayKey := usageDayKey rl now
  match readErr with
  | some e => Except.error ("failed to get usage: " ++ e)
  | none =>
    Except.ok
      ({ Allowed := false
         CurrentRequests := parseIntOrZero (valOrEmpty (st minuteKey))
         CurrentTokens := parseIntOrZero (valOrEmpty (st minuteTokenKey))
         CurrentDayReqs := parseIntOrZero (valOrEmpty (st dayKey))
         ResetMinute := untilNextMinute now
         ResetDay := untilNextDay now
         RejectionReason := "" }, st)

/-- The key list built inside `Reset`. -/
def resetKeys (rl : RateLimiter) (now : GoTime) : List String :=
  [rl.pfx ++ ":minute:" ++ now.formatMinute,
   rl.pfx ++ ":tokens:minute:" ++ now.formatMinute,
   rl.pfx ++ ":day:" ++ now.formatDay]

/-- src/limiter.go `Reset`: one `DEL` of the three current-window keys
(`delErr` is the communication outcome of that command; `DEL` itself
succeeds whether or not the keys exist). -/
def Reset (rl : RateLimiter) (now : GoTime) (st : Store)
    (delErr : Option String) : Except String Store :=
  match delErr with
  | some e => Except.error e
  | none =>
    Except.ok ((resetKeys rl now).foldl (fun s k => s.update k none) st)

/-! ## Derived definitions used by the theorems -/

/-- The minute-request count the read phase of `CheckAndIncrement` sees. -/
def readMinuteReqs (rl : RateLimiter) (now : GoTime) (st : Store) : Int :=
  parseIntOrZero (valOrEmpty (st (checkMinuteKey rl now)))

/-- The minute-token count the read phase of `CheckAndIncrement` sees. -/
def readMinuteTokens (rl : RateLimiter) (now : GoTime) (st : Store) : Int :=
  parseIntOrZero (valOrEmpty (st (checkMinuteTokenKey rl now)))

/-- The day-request count the read phase of `CheckAndIncrement` sees. -/
def readDayReqs (rl : RateLimiter) (now : GoTime) (st : Store) : Int :=
  parseIntOrZero (valOrEmpty (st (checkDayKey rl now)))

/-- The stored cell at a key holds the counter value `n`: either the key is
absent and `n` is zero, or it holds the canonical decimal rendering of `n`
(within int64 range, as Redis guarantees for values it accepts). -/
def counterIs (v : Option String) (n : Int) : Prop :=
  (v = none ∧ n = 0) ∨
    (v = some (intToDecimal n) ∧ -(2 ^ 63) ≤ n ∧ n ≤ 2 ^ 63 - 1)


/-- The stored cell reads as zero: the key is absent or its value is not
an integer for `strconv.Atoi`. -/
def zeroCell (v : Option String) : Prop :=
  v = none ∨ ∃ s, v = some s ∧ goAtoi s = none

/-- A single-threaded sequence of `CheckAndIncrement` calls within fixed
minute and day windows (same `now` for every call), with a healthy store
connection: threads the store through the calls and records the returned
results. -/
def callSeq (rl : RateLimiter) (now : GoTime) :
    List Int → Store → Store × List CheckResult
  | [], st => (st, [])
  | t :: ts, st =>
    match CheckAndIncrement rl now t st none none with
    | Except.ok (r, st2) =>
      let rest := callSeq rl now ts st2
      (rest.1, r :: rest.2)
    | Except.error _ =>
      let rest := callSeq rl now ts st
      (rest.1, rest.2)

/-- How many of the returned results were allowed. -/
def allowedCount (rs : List CheckResult) : Int :=
  ((rs.filter (fun r => r.Allowed)).length : Int)

/-- Sum of the token costs of the allowed calls (costs paired positionally
with the returned results). -/
def allowedTokens : List Int → List CheckResult → Int
  | t :: ts, r :: rs => (if r.Allowed then t else 0) + allowedTokens ts rs
  | _, _ => 0

/-- A well-formed civil date. -/
def ValidDate (d : Date) : Prop :=
  1 ≤ d.year ∧ 1 ≤ d.month ∧ d.month ≤ 12 ∧ 1 ≤ d.day ∧
    d.day ≤ daysInMonth d.year d.month

/-- Chronological (lexicographic year-month-day) strict order on dates. -/
def dateLt (d1 d2 : Date) : Prop :=
  d1.year < d2.year ∨
    (d1.year = d2.year ∧
      (d1.month < d2.month ∨ (d1.month = d2.month ∧ d1.day < d2.day)))

/-- Index of the calendar minute (local civil time) a time lies in. -/
def minuteIdx (t : GoTime) : Nat := t.lsecN / 60

/-- Index of the calendar day (local civil time) a time lies in. -/
def dayIdx (t : GoTime) : Nat := t.lsecN / 86400

/-- Seconds remaining until the local civil day index increments, i.e.
until the day bucket used in the day key rolls over. -/
def dayRolloverRemaining (t : GoTime) : Int :=
  86400 - ((t.lsecN % 86400 : Nat) : Int)

/-! ## Digit-string lemmas -/

theorem padDigits_length : ∀ w n, (padDigits w n).length = w
  | 0, _ => rfl
  | w + 1, n => by simp [padDigits, padDigits_length w]

theorem digitVal_digitChar : ∀ d, d < 10 → digitVal? (digitChar d) = some d := by
  decide

theorem digitChar_ne_minus : ∀ d, d < 10 → digitChar d ≠ '-' := by decide

theorem digitChar_ne_plus : ∀ d, d < 10 → digitChar d ≠ '+' := by decide

theorem mem_padDigits : ∀ w n c, c ∈ padDigits w n → ∃ d, d < 10 ∧ c = digitChar d
  | 0, _, c, h => by simp [padDigits] at h
  | w + 1, n, c, h => by
    simp only [padDigits, List.mem_append, List.mem_singleton] at h
    rcases h with h | h
    · exact mem_padDigits w (n / 10) c h
    · exact ⟨n % 10, Nat.mod_lt _ (by omega), h⟩

theorem parseDigitsAux_append (l₁ l₂ : List Char) (acc : Nat) :
    parseDigitsAux (l₁ ++ l₂) acc =
      match parseDigitsAux l₁ acc with
      | some a => parseDigitsAux l₂ a
      | none => none := by
  induction l₁ generalizing acc with
  | nil => rfl
  | cons c cs ih =>
    simp only [List.cons_append, parseDigitsAux]
    cases digitVal? c with
    | none => rfl
    | some d => exact ih _

theorem parseDigitsAux_padDigits :
    ∀ w n acc, n < 10 ^ w →
      parseDigitsAux (padDigits w n) acc = some (acc * 10 ^ w + n)
  | 0, n, acc, h => by
    have : n = 0 := by simpa using h
    simp [padDigits, parseDigitsAux, this]
  | w + 1, n, acc, h => by
    have hdiv : n / 10 < 10 ^ w := by
      rw [Nat.div_lt_iff_lt_mul (by omega)]
      calc n < 10 ^ (w + 1) := h
        _ = 10 ^ w * 10 := by rw [Nat.pow_succ]
    have hmod : n % 10 < 10 := Nat.mod_lt _ (by omega)
    simp only [padDigits, parseDigitsAux_append,
      parseDigitsAux_padDigits w (n / 10) acc hdiv]
    simp only [parseDigitsAux, digitVal_digitChar (n % 10) hmod]
    congr 1
    have hpow : 10 ^ (w + 1) = 10 ^ w * 10 := by rw [Nat.pow_succ]
    have hdm : 10 * (n / 10) + n % 10 = n := Nat.div_add_mod n 10
    calc (acc * 10 ^ w + n / 10) * 10 + n % 10
        = acc * (10 ^ w * 10) + (10 * (n / 10) + n % 10) := by ring
      _ = acc * 10 ^ (w + 1) + n := by rw [hpow, hdm]

theorem parseDigits_padDigits (w n : Nat) (hw : 1 ≤ w) (h : n < 10 ^ w) :
    parseDigits (padDigits w n) = some n := by
  cases hl : padDigits w n with
  | nil =>
    have := padDigits_length w n
    rw [hl] at this
    simp at this
    omega
  | cons c cs =>
    have h2 : parseDigitsAux (padDigits w n) 0 = some (0 * 10 ^ w + n) :=
      parseDigitsAux_padDigits w n 0 h
    rw [hl] at h2
    show parseDigitsAux (c :: cs) 0 = some n
    rw [h2]
    simp

theorem numDigitsAux_eq : ∀ fuel n, n ≤ fuel →
    numDigitsAux fuel n = Nat.log 10 n + 1
  | 0, n, h => by
    have hn : n = 0 := by omega
    subst hn
    simp [numDigitsAux, Nat.log_zero_right]
  | fuel + 1, n, h => by
    unfold numDigitsAux
    by_cases h10 : n < 10
    · rw [if_pos h10, Nat.log_eq_zero_iff.mpr (Or.inl h10)]
    · rw [if_neg h10]
      have hdiv : n / 10 ≤ fuel := by omega
      rw [numDigitsAux_eq fuel (n / 10) hdiv]
      have hlog : Nat.log 10 n = Nat.log 10 (n / 10) + 1 :=
        Nat.log_of_one_lt_of_le (by omega) (by omega)
      omega

theorem numDigits_eq (n : Nat) : numDigits n = Nat.log 10 n + 1 :=
  numDigitsAux_eq n n (le_refl n)

theorem natToDecimal_eq_log (n : Nat) :
    natToDecimal n = ⟨padDigits (Nat.log 10 n + 1) n⟩ := by
  unfold natToDecimal
  rw [numDigits_eq]

theorem lt_pow_log_succ (n : Nat) : n < 10 ^ (Nat.log 10 n + 1) :=
  Nat.lt_pow_succ_log_self (by omega) n

theorem goAtoi_natToDecimal (n : Nat) (h : (n : Int) ≤ 2 ^ 63 - 1) :
    goAtoi (natToDecimal n) = some (n : Int) := by
  have hdata : (natToDecimal n).data = padDigits (Nat.log 10 n + 1) n := by
    rw [natToDecimal_eq_log]
  cases hl : padDigits (Nat.log 10 n + 1) n with
  | nil =>
    have := padDigits_length (Nat.log 10 n + 1) n
    rw [hl] at this
    simp at this
  | cons c cs =>
    obtain ⟨d, hd, rfl⟩ : ∃ d, d < 10 ∧ c = digitChar d := by
      apply mem_padDigits (Nat.log 10 n + 1) n
      rw [hl]; exact List.mem_cons_self _ _
    have hpd : parseDigits (padDigits (Nat.log 10 n + 1) n) = some n :=
      parseDigits_padDigits _ _ (by omega) (lt_pow_log_succ n)
    rw [hl] at hpd
    unfold goAtoi
    rw [hdata, hl]
    simp only [digitChar_ne_minus d hd, digitChar_ne_plus d hd, if_false, hpd]
    rw [if_pos h]

theorem goAtoi_intToDecimal (v : Int) (h1 : -(2 ^ 63) ≤ v) (h2 : v ≤ 2 ^ 63 - 1) :
    goAtoi (intToDecimal v) = some v := by
  have hpow : (2 : Int) ^ 63 = 9223372036854775808 := by norm_num
  rw [hpow] at h1 h2
  by_cases hv : v < 0
  · have hdata : (intToDecimal v).data =
        '-' :: padDigits (Nat.log 10 v.natAbs + 1) v.natAbs := by
      simp only [intToDecimal, if_pos hv, String.data_append,
        natToDecimal_eq_log]
      rfl
    have hpd : parseDigits (padDigits (Nat.log 10 v.natAbs + 1) v.natAbs) =
        some v.natAbs :=
      parseDigits_padDigits _ _ (by omega) (lt_pow_log_succ _)
    have hrange : ((v.natAbs : Nat) : Int) ≤ 2 ^ 63 := by rw [hpow]; omega
    unfold goAtoi
    rw [hdata]
    simp only [if_pos rfl, ite_true, eq_self_iff_true, hpd, if_pos hrange]
    congr 1
    omega
  · have hv0 : 0 ≤ v := not_lt.mp hv
    have heq : intToDecimal v = natToDecimal v.toNat := by
      unfold intToDecimal
      rw [if_neg hv]
    have hb : ((v.toNat : Nat) : Int) ≤ 2 ^ 63 - 1 := by rw [hpow]; omega
    rw [heq, goAtoi_natToDecimal v.toNat hb, Int.toNat_of_nonneg hv0]

theorem natToDecimal_ne_empty (n : Nat) : natToDecimal n ≠ "" := by
  intro h
  rw [natToDecimal_eq_log] at h
  have h2 : padDigits (Nat.log 10 n + 1) n = ([] : List Char) := by
    have h3 : (String.mk (padDigits (Nat.log 10 n + 1) n)).data = "".data := by
      rw [h]
    exact h3
  have hlen := padDigits_length (Nat.log 10 n + 1) n
  rw [h2] at hlen
  simp at hlen

theorem intToDecimal_ne_empty (v : Int) : intToDecimal v ≠ "" := by
  unfold intToDecimal
  by_cases hv : v < 0
  · rw [if_pos hv]
    intro h
    have h2 : ('-' :: (natToDecimal v.natAbs).data) = ([] : List Char) := by
      have h3 : ("-" ++ natToDecimal v.natAbs).data = "".data := by rw [h]
      exact h3
    simp at h2
  · rw [if_neg hv]
    exact natToDecimal_ne_empty _

theorem parseIntOrZero_intToDecimal (v : Int) (h1 : -(2 ^ 63) ≤ v)
    (h2 : v ≤ 2 ^ 63 - 1) : parseIntOrZero (intToDecimal v) = v := by
  unfold parseIntOrZero
  rw [if_neg (intToDecimal_ne_empty v), goAtoi_intToDecimal v h1 h2]

theorem parseIntOrZero_empty : parseIntOrZero "" = 0 := rfl

theorem parseIntOrZero_of_goAtoi_none (s : String) (h : goAtoi s = none) :
    parseIntOrZero s = 0 := by
  unfold parseIntOrZero
  by_cases hs : s = ""
  · rw [if_pos hs]
  · rw [if_neg hs, h]

/-! ## Width and key-distinctness lemmas -/

theorem max_width_eq (n w : Nat) (hw : 1 ≤ w) (h : n < 10 ^ w) :
    max w (Nat.log 10 n + 1) = w := by
  rcases Nat.eq_zero_or_pos n with hn | hn
  · subst hn
    simp [Nat.log]
    omega
  · have := Nat.log_lt_of_lt_pow (by omega : n ≠ 0) h
    omega

theorem goAppendInt_length (n w : Nat) :
    (goAppendInt n w).length = max w (Nat.log 10 n + 1) := by
  show (padDigits (max w (numDigits n)) n).length = _
  rw [numDigits_eq]
  exact padDigits_length _ _

theorem goAppendInt_length_of_lt (n w : Nat) (hw : 1 ≤ w) (h : n < 10 ^ w) :
    (goAppendInt n w).length = w := by
  rw [goAppendInt_length, max_width_eq n w hw h]

theorem formatMinute_length (t : GoTime) :
    t.formatMinute.length = t.formatDay.length + 6 := by
  have hh : t.lsecN % 86400 / 3600 < 100 := by omega
  have hm : t.lsecN % 86400 % 3600 / 60 < 100 := by omega
  show (fmtDate (dateOfDays (t.lsecN / 86400)) ++ ":" ++
      goAppendInt (t.lsecN % 86400 / 3600) 2 ++ ":" ++
      goAppendInt (t.lsecN % 86400 % 3600 / 60) 2).length = _
  simp only [String.length_append,
    goAppendInt_length_of_lt _ 2 (by omega) (by omega : t.lsecN % 86400 / 3600 < 10 ^ 2),
    goAppendInt_length_of_lt _ 2 (by omega) (by omega : t.lsecN % 86400 % 3600 / 60 < 10 ^ 2)]
  rfl

theorem checkMinuteKey_length (rl : RateLimiter) (now : GoTime) :
    (checkMinuteKey rl now).length = rl.pfx.length + now.formatDay.length + 14 := by
  unfold checkMinuteKey
  simp only [String.length_append, formatMinute_length]
  have : (":minute:").length = 8 := rfl
  omega

theorem checkMinuteTokenKey_length (rl : RateLimiter) (now : GoTime) :
    (checkMinuteTokenKey rl now).length = rl.pfx.length + now.formatDay.length + 21 := by
  unfold checkMinuteTokenKey
  simp only [String.length_append, formatMinute_length]
  have : (":tokens:minute:").length = 15 := rfl
  omega

theorem checkDayKey_length (rl : RateLimiter) (now : GoTime) :
    (checkDayKey rl now).length = rl.pfx.length + now.formatDay.length + 5 := by
  unfold checkDayKey
  simp only [String.length_append]
  have : (":day:").length = 5 := rfl
  omega

theorem checkKeys_ne_one_two (rl : RateLimiter) (now : GoTime) :
    checkMinuteKey rl now ≠ checkMinuteTokenKey rl now := by
  intro h
  have := congrArg String.length h
  rw [checkMinuteKey_length, checkMinuteTokenKey_length] at this
  omega

theorem checkKeys_ne_one_three (rl : RateLimiter) (now : GoTime) :
    checkMinuteKey rl now ≠ checkDayKey rl now := by
  intro h
  have := congrArg String.length h
  rw [checkMinuteKey_length, checkDayKey_length] at this
  omega

theorem checkKeys_ne_two_three (rl : RateLimiter) (now : GoTime) :
    checkMinuteTokenKey rl now ≠ checkDayKey rl now := by
  intro h
  have := congrArg String.length h
  rw [checkMinuteTokenKey_length, checkDayKey_length] at this
  omega

/-! ## Read abbreviations and shape lemmas for CheckAndIncrement -/

theorem CheckAndIncrement_readErr (rl : RateLimiter) (now : GoTime)
    (tokens : Int) (st : Store) (e : String) (w : Option String) :
    CheckAndIncrement rl now tokens st (some e) w =
      Except.error ("failed to get current values: " ++ e) := rfl

theorem CheckAndIncrement_minuteReject (rl : RateLimiter) (now : GoTime)
    (tokens : Int) (st : Store) (w : Option String)
    (h : readMinuteReqs rl now st ≥ rl.config.RequestsPerMinute) :
    CheckAndIncrement rl now tokens st none w =
      Except.ok ({ Allowed := false,
                    CurrentRequests := readMinuteReqs rl now st,
                    CurrentTokens := readMinuteTokens rl now st,
                    CurrentDayReqs := readDayReqs rl now st,
                    ResetMinute := untilNextMinute now,
                    ResetDay := 0,
                    RejectionReason := "requests per minute limit exceeded (" ++
                    intToDecimal (readMinuteReqs rl now st) ++ "/" ++
                    intToDecimal rl.config.RequestsPerMinute ++ ")" }, st) := by
  unfold readMinuteReqs at h
  simp only [CheckAndIncrement, readMinuteReqs, readMinuteTokens, readDayReqs]
  rw [if_pos h]

theorem CheckAndIncrement_tokenReject (rl : RateLimiter) (now : GoTime)
    (tokens : Int) (st : Store) (w : Option String)
    (h1 : ¬(readMinuteReqs rl now st ≥ rl.config.RequestsPerMinute))
    (h2 : readMinuteTokens rl now st + tokens > rl.config.TokensPerMinute) :
    CheckAndIncrement rl now tokens st none w =
      Except.ok ({ Allowed := false,
                    CurrentRequests := readMinuteReqs rl now st,
                    CurrentTokens := readMinuteTokens rl now st,
                    CurrentDayReqs := readDayReqs rl now st,
                    ResetMinute := untilNextMinute now,
                    ResetDay := 0,
                    RejectionReason := "tokens per minute limit exceeded (" ++
                    intToDecimal (readMinuteTokens rl now st) ++ "+" ++
                    intToDecimal tokens ++ " > " ++
                    intToDecimal rl.config.TokensPerMinute ++ ")" }, st) := by
  unfold readMinuteReqs at h1
  unfold readMinuteTokens at h2
  simp only [CheckAndIncrement, readMinuteReqs, readMinuteTokens, readDayReqs]
  rw [if_neg h1, if_pos h2]

theorem CheckAndIncrement_dayReject (rl : RateLimiter) (now : GoTime)
    (tokens : Int) (st : Store) (w : Option String)
    (h1 : ¬(readMinuteReqs rl now st ≥ rl.config.RequestsPerMinute))
    (h2 : ¬(readMinuteTokens rl now st + tokens > rl.config.TokensPerMinute))
    (h3 : readDayReqs rl now st ≥ rl.config.RequestsPerDay) :
    CheckAndIncrement rl now tokens st none w =
      Except.ok ({ Allowed := false,
                    CurrentRequests := readMinuteReqs rl now st,
                    CurrentTokens := readMinuteTokens rl now st,
                    CurrentDayReqs := readDayReqs rl now st,
                    ResetMinute := 0,
                    ResetDay := untilNextDay now,
                    RejectionReason := "requests per day limit exceeded (" ++
                    intToDecimal (readDayReqs rl now st) ++ "/" ++
                    intToDecimal rl.config.RequestsPerDay ++ ")" }, st) := by
  unfold readMinuteReqs at h1
  unfold readMinuteTokens at h2
  unfold readDayReqs at h3
  simp only [CheckAndIncrement, readMinuteReqs, readMinuteTokens, readDayReqs]
  rw [if_neg h1, if_neg h2, if_pos h3]

theorem CheckAndIncrement_writeErr (rl : RateLimiter) (now : GoTime)
    (tokens : Int) (st : Store) (e : String)
    (h1 : ¬(readMinuteReqs rl now st ≥ rl.config.RequestsPerMinute))
    (h2 : ¬(readMinuteTokens rl now st + tokens > rl.config.TokensPerMinute))
    (h3 : ¬(readDayReqs rl now st ≥ rl.config.RequestsPerDay)) :
    CheckAndIncrement rl now tokens st none (some e) =
      Except.error ("failed to increment counters: " ++ e) := by
  unfold readMinuteReqs at h1
  unfold readMinuteTokens at h2
  unfold readDayReqs at h3
  simp only [CheckAndIncrement]
  rw [if_neg h1, if_neg h2, if_neg h3]

theorem CheckAndIncrement_writeCmdErr (rl : RateLimiter) (now : GoTime)
    (tokens : Int) (st : Store) (e : String) (st2 : Store)
    (h1 : ¬(readMinuteReqs rl now st ≥ rl.config.RequestsPerMinute))
    (h2 : ¬(readMinuteTokens rl now st + tokens > rl.config.TokensPerMinute))
    (h3 : ¬(readDayReqs rl now st ≥ rl.config.RequestsPerDay))
    (hw : writePipeline st (checkMinuteKey rl now) (checkMinuteTokenKey rl now)
        (checkDayKey rl now) tokens = (some e, st2)) :
    CheckAndIncrement rl now tokens st none none =
      Except.error ("failed to increment counters: " ++ e) := by
  unfold readMinuteReqs at h1
  unfold readMinuteTokens at h2
  unfold readDayReqs at h3
  simp only [CheckAndIncrement]
  rw [if_neg h1, if_neg h2, if_neg h3, hw]

theorem CheckAndIncrement_allowed (rl : RateLimiter) (now : GoTime)
    (tokens : Int) (st : Store) (st2 : Store)
    (h1 : ¬(readMinuteReqs rl now st ≥ rl.config.RequestsPerMinute))
    (h2 : ¬(readMinuteTokens rl now st + tokens > rl.config.TokensPerMinute))
    (h3 : ¬(readDayReqs rl now st ≥ rl.config.RequestsPerDay))
    (hw : writePipeline st (checkMinuteKey rl now) (checkMinuteTokenKey rl now)
        (checkDayKey rl now) tokens = (none, st2)) :
    CheckAndIncrement rl now tokens st none none =
      Except.ok ({ Allowed := true,
                    CurrentRequests := readMinuteReqs rl now st + 1,
                    CurrentTokens := readMinuteTokens rl now st + tokens,
                    CurrentDayReqs := readDayReqs rl now st + 1,
                    ResetMinute := untilNextMinute now,
                    ResetDay := untilNextDay now,
                    RejectionReason := "" }, st2) := by
  unfold readMinuteReqs at h1
  unfold readMinuteTokens at h2
  unfold readDayReqs at h3
  simp only [CheckAndIncrement, readMinuteReqs, readMinuteTokens, readDayReqs]
  rw [if_neg h1, if_neg h2, if_neg h3, hw]

/-! ## Store and counter lemmas -/

theorem Store.update_same (st : Store) (k : String) (v : Option String) :
    st.update k v k = v := by
  unfold Store.update
  rw [if_pos rfl]

theorem Store.update_other (st : Store) (k q : String) (v : Option String)
    (h : q ≠ k) : st.update k v q = st q := by
  unfold Store.update
  rw [if_neg h]

theorem counterIs_read (v : Option String) (n : Int) (h : counterIs v n) :
    parseIntOrZero (valOrEmpty v) = n := by
  rcases h with ⟨hv, hn⟩ | ⟨hv, h1, h2⟩
  · rw [hv, hn]
    rfl
  · rw [hv]
    exact parseIntOrZero_intToDecimal n h1 h2

theorem redisIncrBy_counter (st : Store) (k : String) (n δ : Int)
    (h : counterIs (st k) n) :
    redisIncrBy st k δ = (none, st.update k (some (intToDecimal (n + δ)))) := by
  rcases h with ⟨hv, hn⟩ | ⟨hv, h1, h2⟩
  · subst hn
    simp only [redisIncrBy, hv, zero_add]
  · simp only [redisIncrBy, hv, goAtoi_intToDecimal n h1 h2]

/-- Outcome of the write pipeline on three pairwise distinct keys holding
counters `a`, `s`, `b`: no error, and the three counters advance by
1, `tokens`, 1. -/
theorem writePipeline_counters (st : Store) (k1 k2 k3 : String) (tokens : Int)
    (a s b : Int)
    (h12 : k1 ≠ k2) (h13 : k1 ≠ k3) (h23 : k2 ≠ k3)
    (ha : counterIs (st k1) a) (hs : counterIs (st k2) s)
    (hb : counterIs (st k3) b) :
    writePipeline st k1 k2 k3 tokens =
      (none, ((st.update k1 (some (intToDecimal (a + 1)))).update k2
        (some (intToDecimal (s + tokens)))).update k3
        (some (intToDecimal (b + 1)))) := by
  have e1 := redisIncrBy_counter st k1 a 1 ha
  have hs1 : ((st.update k1 (some (intToDecimal (a + 1)))) k2) = st k2 :=
    Store.update_other _ _ _ _ (Ne.symm h12)
  have e2 := redisIncrBy_counter (st.update k1 (some (intToDecimal (a + 1))))
    k2 s tokens (by rw [hs1]; exact hs)
  have hs2 : (((st.update k1 (some (intToDecimal (a + 1)))).update k2
      (some (intToDecimal (s + tokens)))) k3) = st k3 := by
    rw [Store.update_other _ _ _ _ (Ne.symm h23),
      Store.update_other _ _ _ _ (Ne.symm h13)]
  have e3 := redisIncrBy_counter ((st.update k1 (some (intToDecimal (a + 1)))).update
    k2 (some (intToDecimal (s + tokens)))) k3 b 1 (by rw [hs2]; exact hb)
  unfold writePipeline
  rw [e1]
  simp only []
  rw [e2]
  simp only []
  rw [e3]
  rfl

/-! ## Shape lemmas for GetCurrentUsage and Reset -/

theorem GetCurrentUsage_readErr (rl : RateLimiter) (now : GoTime)
    (st : Store) (e : String) :
    GetCurrentUsage rl now st (some e) =
      Except.error ("failed to get usage: " ++ e) := rfl

theorem GetCurrentUsage_ok (rl : RateLimiter) (now : GoTime) (st : Store) :
    GetCurrentUsage rl now st none =
      Except.ok ({ Allowed := false,
                   CurrentRequests := parseIntOrZero (valOrEmpty (st (usageMinuteKey rl now))),
                   CurrentTokens := parseIntOrZero (valOrEmpty (st (usageMinuteTokenKey rl now))),
                   CurrentDayReqs := parseIntOrZero (valOrEmpty (st (usageDayKey rl now))),
                   ResetMinute := untilNextMinute now,
                   ResetDay := untilNextDay now,
                   RejectionReason := "" }, st) := rfl

theorem Reset_delErr (rl : RateLimiter) (now : GoTime) (st : Store)
    (e : String) :
    Reset rl now st (some e) = Except.error e := rfl

theorem Reset_ok (rl : RateLimiter) (now : GoTime) (st : Store) :
    Reset rl now st none =
      Except.ok (((st.update (rl.pfx ++ ":minute:" ++ now.formatMinute) none).update
        (rl.pfx ++ ":tokens:minute:" ++ now.formatMinute) none).update
        (rl.pfx ++ ":day:" ++ now.formatDay) none) := rfl

/-! ## Small helper lemmas -/

theorem untilNextMinute_pos (t : GoTime) : 0 < untilNextMinute t := by
  unfold untilNextMinute
  omega

theorem untilNextDay_pos (t : GoTime) : 0 < untilNextDay t := by
  unfold untilNextDay
  omega

theorem zeroCell_read (v : Option String) (h : zeroCell v) :
    parseIntOrZero (valOrEmpty v) = 0 := by
  rcases h with rfl | ⟨s, rfl, hs⟩
  · rfl
  · exact parseIntOrZero_of_goAtoi_none s hs

theorem counterIs_zero_of_none (v : Option String) (h : v = none) :
    counterIs v 0 := Or.inl ⟨h, rfl⟩

/-! ## Claims -/

/-- C3: when `CheckAndIncrement` allows a call, the returned `CheckResult`
has `Allowed = true`, `CurrentRequests` equal to the pre-increment
minute-request read plus 1, `CurrentTokens` equal to the pre-increment
token read plus the cost, `CurrentDayReqs` equal to the pre-increment day
read plus 1 — local arithmetic on the read-phase values — and both
`ResetMinute` and `ResetDay` are populated (equal to the positive time
remaining to the respective window boundaries). -/
theorem claim_C3_success_result (rl : RateLimiter) (now : GoTime)
    (tokens : Int) (st st2 : Store) (res : CheckResult)
    (h : CheckAndIncrement rl now tokens st none none = Except.ok (res, st2))
    (hA : res.Allowed = true) :
    res.CurrentRequests = readMinuteReqs rl now st + 1 ∧
    res.CurrentTokens = readMinuteTokens rl now st + tokens ∧
    res.CurrentDayReqs = readDayReqs rl now st + 1 ∧
    res.ResetMinute = untilNextMinute now ∧ 0 < res.ResetMinute ∧
    res.ResetDay = untilNextDay now ∧ 0 < res.ResetDay := by
  by_cases h1 : readMinuteReqs rl now st ≥ rl.config.RequestsPerMinute
  · rw [CheckAndIncrement_minuteReject rl now tokens st none h1] at h
    simp only [Except.ok.injEq, Prod.mk.injEq] at h
    rw [← h.1] at hA
    simp at hA
  by_cases h2 : readMinuteTokens rl now st + tokens > rl.config.TokensPerMinute
  · rw [CheckAndIncrement_tokenReject rl now tokens st none h1 h2] at h
    simp only [Except.ok.injEq, Prod.mk.injEq] at h
    rw [← h.1] at hA
    simp at hA
  by_cases h3 : readDayReqs rl now st ≥ rl.config.RequestsPerDay
  · rw [CheckAndIncrement_dayReject rl now tokens st none h1 h2 h3] at h
    simp only [Except.ok.injEq, Prod.mk.injEq] at h
    rw [← h.1] at hA
    simp at hA
  cases hw : writePipeline st (checkMinuteKey rl now) (checkMinuteTokenKey rl now)
      (checkDayKey rl now) tokens with
  | mk werr st3 =>
    cases werr with
    | some e =>
      rw [CheckAndIncrement_writeCmdErr rl now tokens st e st3 h1 h2 h3 hw] at h
      simp at h
    | none =>
      rw [CheckAndIncrement_allowed rl now tokens st st3 h1 h2 h3 hw] at h
      simp only [Except.ok.injEq, Prod.mk.injEq] at h
      rw [← h.1]
      exact ⟨rfl, rfl, rfl, rfl, untilNextMinute_pos now, rfl, untilNextDay_pos now⟩

/-- C4: a store-communication failure in either pipeline round trip makes
`CheckAndIncrement` return a hard error carrying the originating cause,
and no allowed/denied result; a key-absent response is not an error: with
all three keys absent (and no communication failure) the call returns a
normal result. -/
theorem claim_C4_store_failure (rl : RateLimiter) (now : GoTime)
    (tokens : Int) (st : Store) (e : String) :
    (CheckAndIncrement rl now tokens st (some e) none =
      Except.error ("failed to get current values: " ++ e)) ∧
    (∀ pr, CheckAndIncrement rl now tokens st (some e) none ≠ Except.ok pr) ∧
    (¬(readMinuteReqs rl now st ≥ rl.config.RequestsPerMinute) →
      ¬(readMinuteTokens rl now st + tokens > rl.config.TokensPerMinute) →
      ¬(readDayReqs rl now st ≥ rl.config.RequestsPerDay) →
      CheckAndIncrement rl now tokens st none (some e) =
        Except.error ("failed to increment counters: " ++ e) ∧
      ∀ pr, CheckAndIncrement rl now tokens st none (some e) ≠ Except.ok pr) ∧
    (st (checkMinuteKey rl now) = none →
      st (checkMinuteTokenKey rl now) = none →
      st (checkDayKey rl now) = none →
      ∃ pr, CheckAndIncrement rl now tokens st none none = Except.ok pr) := by
  refine ⟨CheckAndIncrement_readErr rl now tokens st e none, ?_, ?_, ?_⟩
  · intro pr hpr
    rw [CheckAndIncrement_readErr rl now tokens st e none] at hpr
    simp at hpr
  · intro h1 h2 h3
    refine ⟨CheckAndIncrement_writeErr rl now tokens st e h1 h2 h3, ?_⟩
    intro pr hpr
    rw [CheckAndIncrement_writeErr rl now tokens st e h1 h2 h3] at hpr
    simp at hpr
  · intro ha hb hc
    by_cases h1 : readMinuteReqs rl now st ≥ rl.config.RequestsPerMinute
    · exact ⟨_, CheckAndIncrement_minuteReject rl now tokens st none h1⟩
    by_cases h2 : readMinuteTokens rl now st + tokens > rl.config.TokensPerMinute
    · exact ⟨_, CheckAndIncrement_tokenReject rl now tokens st none h1 h2⟩
    by_cases h3 : readDayReqs rl now st ≥ rl.config.RequestsPerDay
    · exact ⟨_, CheckAndIncrement_dayReject rl now tokens st none h1 h2 h3⟩
    have hw := writePipeline_counters st (checkMinuteKey rl now)
      (checkMinuteTokenKey rl now) (checkDayKey rl now) tokens 0 0 0
      (checkKeys_ne_one_two rl now) (checkKeys_ne_one_three rl now)
      (checkKeys_ne_two_three rl now)
      (counterIs_zero_of_none _ ha) (counterIs_zero_of_none _ hb)
      (counterIs_zero_of_none _ hc)
    exact ⟨_, CheckAndIncrement_allowed rl now tokens st _ h1 h2 h3 hw⟩

/-- C5: in the read phase of both `CheckAndIncrement` and
`GetCurrentUsage`, an absent key reads as zero and a stored value that
`strconv.Atoi` rejects (including the empty string) is treated as zero
instead of failing the call. -/
theorem claim_C5_defensive_zero (rl : RateLimiter) (now : GoTime)
    (st : Store) (tokens : Int) :
    parseIntOrZero "" = 0 ∧
    (∀ s, goAtoi s = none → parseIntOrZero s = 0) ∧
    (zeroCell (st (usageMinuteKey rl now)) →
      zeroCell (st (usageMinuteTokenKey rl now)) →
      zeroCell (st (usageDayKey rl now)) →
      GetCurrentUsage rl now st none =
        Except.ok ({ Allowed := false,
                     CurrentRequests := 0,
                     CurrentTokens := 0,
                     CurrentDayReqs := 0,
                     ResetMinute := untilNextMinute now,
                     ResetDay := untilNextDay now,
                     RejectionReason := "" }, st)) ∧
    (rl.config.RequestsPerMinute ≤ 0 →
      zeroCell (st (checkMinuteKey rl now)) →
      zeroCell (st (checkMinuteTokenKey rl now)) →
      zeroCell (st (checkDayKey rl now)) →
      ∃ res, CheckAndIncrement rl now tokens st none none =
          Except.ok (res, st) ∧
        res.Allowed = false ∧ res.CurrentRequests = 0 ∧
        res.CurrentTokens = 0 ∧ res.CurrentDayReqs = 0) := by
  refine ⟨rfl, parseIntOrZero_of_goAtoi_none, ?_, ?_⟩
  · intro hm ht hd
    rw [GetCurrentUsage_ok, zeroCell_read _ hm, zeroCell_read _ ht,
      zeroCell_read _ hd]
  · intro hcfg hm ht hd
    have hr : readMinuteReqs rl now st = 0 := zeroCell_read _ hm
    have htk : readMinuteTokens rl now st = 0 := zeroCell_read _ ht
    have hdr : readDayReqs rl now st = 0 := zeroCell_read _ hd
    have h1 : readMinuteReqs rl now st ≥ rl.config.RequestsPerMinute := by
      rw [hr]; exact hcfg
    refine ⟨_, CheckAndIncrement_minuteReject rl now tokens st none h1,
      rfl, ?_, ?_, ?_⟩
    · exact hr
    · exact htk
    · exact hdr

/-- C6: `GetCurrentUsage` performs no store writes: it returns the store
unchanged, reports the current counter readings with `Allowed` left at its
zero value `false` and both reset durations populated, every repetition
returns the identical result, and a subsequent `CheckAndIncrement` on the
store it hands back behaves exactly as on the original store. -/
theorem claim_C6_usage_pure (rl : RateLimiter) (now : GoTime) (st : Store) :
    ∃ r, GetCurrentUsage rl now st none = Except.ok (r, st) ∧
      r.Allowed = false ∧
      r.CurrentRequests = parseIntOrZero (valOrEmpty (st (usageMinuteKey rl now))) ∧
      r.CurrentTokens = parseIntOrZero (valOrEmpty (st (usageMinuteTokenKey rl now))) ∧
      r.CurrentDayReqs = parseIntOrZero (valOrEmpty (st (usageDayKey rl now))) ∧
      r.ResetMinute = untilNextMinute now ∧ 0 < r.ResetMinute ∧
      r.ResetDay = untilNextDay now ∧ 0 < r.ResetDay ∧
      (∀ r2 st3, GetCurrentUsage rl now st none = Except.ok (r2, st3) →
        r2 = r ∧ st3 = st ∧
        ∀ tokens re we, CheckAndIncrement rl now tokens st3 re we =
          CheckAndIncrement rl now tokens st re we) := by
  refine ⟨_, GetCurrentUsage_ok rl now st, rfl, rfl, rfl, rfl, rfl,
    untilNextMinute_pos now, rfl, untilNextDay_pos now, ?_⟩
  intro r2 st3 hh
  rw [GetCurrentUsage_ok rl now st] at hh
  simp only [Except.ok.injEq, Prod.mk.injEq] at hh
  obtain ⟨hr, hst⟩ := hh
  subst hst
  exact ⟨hr.symm, rfl, fun tokens re we => rfl⟩

/-- C9: `Reset` deletes exactly the three keys of the current minute and
day windows (all other keys keep their values), succeeds even when the
keys do not exist, is idempotent, and `Reset` immediately followed by
`GetCurrentUsage` in the same windows yields all-zero counters. -/
theorem claim_C9_reset (rl : RateLimiter) (now : GoTime) (st : Store) :
    ∃ st2, Reset rl now st none = Except.ok st2 ∧
      st2 (rl.pfx ++ ":minute:" ++ now.formatMinute) = none ∧
      st2 (rl.pfx ++ ":tokens:minute:" ++ now.formatMinute) = none ∧
      st2 (rl.pfx ++ ":day:" ++ now.formatDay) = none ∧
      (∀ q, q ∉ resetKeys rl now → st2 q = st q) ∧
      Reset rl now st2 none = Except.ok st2 ∧
      (∀ r st3, GetCurrentUsage rl now st2 none = Except.ok (r, st3) →
        r.CurrentRequests = 0 ∧ r.CurrentTokens = 0 ∧ r.CurrentDayReqs = 0) := by
  have h12 : (rl.pfx ++ ":minute:" ++ now.formatMinute) ≠
      (rl.pfx ++ ":tokens:minute:" ++ now.formatMinute) :=
    checkKeys_ne_one_two rl now
  have h13 : (rl.pfx ++ ":minute:" ++ now.formatMinute) ≠
      (rl.pfx ++ ":day:" ++ now.formatDay) :=
    checkKeys_ne_one_three rl now
  have h23 : (rl.pfx ++ ":tokens:minute:" ++ now.formatMinute) ≠
      (rl.pfx ++ ":day:" ++ now.formatDay) :=
    checkKeys_ne_two_three rl now
  refine ⟨_, Reset_ok rl now st, ?_, ?_, ?_, ?_, ?_, ?_⟩
  · rw [Store.update_other _ _ _ _ h13, Store.update_other _ _ _ _ h12,
      Store.update_same]
  · rw [Store.update_other _ _ _ _ h23, Store.update_same]
  · rw [Store.update_same]
  · intro q hq
    simp only [resetKeys, List.mem_cons, List.not_mem_nil, or_false,
      not_or] at hq
    obtain ⟨hq1, hq2, hq3⟩ := hq
    rw [Store.update_other _ _ _ _ hq3, Store.update_other _ _ _ _ hq2,
      Store.update_other _ _ _ _ hq1]
  · rw [Reset_ok]
    congr 1
    funext q
    simp only [Store.update]
    by_cases e3 : q = rl.pfx ++ ":day:" ++ now.formatDay <;>
      by_cases e2 : q = rl.pfx ++ ":tokens:minute:" ++ now.formatMinute <;>
      by_cases e1 : q = rl.pfx ++ ":minute:" ++ now.formatMinute <;>
      simp [e1, e2, e3]
  · intro r st3 hh
    rw [GetCurrentUsage_ok] at hh
    simp only [Except.ok.injEq, Prod.mk.injEq] at hh
    obtain ⟨hr, hst⟩ := hh
    rw [← hr]
    have k1 : (((st.update (rl.pfx ++ ":minute:" ++ now.formatMinute) none).update
        (rl.pfx ++ ":tokens:minute:" ++ now.formatMinute) none).update
        (rl.pfx ++ ":day:" ++ now.formatDay) none)
        (usageMinuteKey rl now) = none := by
      show (((st.update (rl.pfx ++ ":minute:" ++ now.formatMinute) none).update
        (rl.pfx ++ ":tokens:minute:" ++ now.formatMinute) none).update
        (rl.pfx ++ ":day:" ++ now.formatDay) none)
        (rl.pfx ++ ":minute:" ++ now.formatMinute) = none
      rw [Store.update_other _ _ _ _ h13, Store.update_other _ _ _ _ h12,
        Store.update_same]
    have k2 : (((st.update (rl.pfx ++ ":minute:" ++ now.formatMinute) none).update
        (rl.pfx ++ ":tokens:minute:" ++ now.formatMinute) none).update
        (rl.pfx ++ ":day:" ++ now.formatDay) none)
        (usageMinuteTokenKey rl now) = none := by
      show (((st.update (rl.pfx ++ ":minute:" ++ now.formatMinute) none).update
        (rl.pfx ++ ":tokens:minute:" ++ now.formatMinute) none).update
        (rl.pfx ++ ":day:" ++ now.formatDay) none)
        (rl.pfx ++ ":tokens:minute:" ++ now.formatMinute) = none
      rw [Store.update_other _ _ _ _ h23, Store.update_same]
    have k3 : (((st.update (rl.pfx ++ ":minute:" ++ now.formatMinute) none).update
        (rl.pfx ++ ":tokens:minute:" ++ now.formatMinute) none).update
        (rl.pfx ++ ":day:" ++ now.formatDay) none)
        (usageDayKey rl now) = none := Store.update_same _ _ _
    simp only [k1, k2, k3]
    exact ⟨rfl, rfl, rfl⟩

/-- C10: `CheckAndIncrement` does not enforce a non-negative token cost:
with the counters inside all three ceilings, a negative `tokens` argument
is allowed, the minute-token counter is incremented by the negative value
(hence decreased), and the returned `CurrentTokens` decreases likewise. -/
theorem claim_C10_negative_tokens (cfg : Config) (now : GoTime) (st : Store)
    (tokens : Int)
    (hm : st (checkMinuteKey (New cfg) now) = none)
    (htk : st (checkMinuteTokenKey (New cfg) now) = none)
    (hd : st (checkDayKey (New cfg) now) = none)
    (h1 : 0 < cfg.RequestsPerMinute) (h2 : 0 ≤ cfg.TokensPerMinute)
    (h3 : 0 < cfg.RequestsPerDay)
    (hneg : tokens < 0) (h32 : -(2 ^ 31) ≤ tokens) :
    ∃ res st2,
      CheckAndIncrement (New cfg) now tokens st none none =
        Except.ok (res, st2) ∧
      res.Allowed = true ∧
      res.CurrentTokens = tokens ∧ res.CurrentTokens < 0 ∧
      st2 (checkMinuteTokenKey (New cfg) now) = some (intToDecimal tokens) ∧
      parseIntOrZero (valOrEmpty (st2 (checkMinuteTokenKey (New cfg) now))) =
        tokens := by
  have hr : readMinuteReqs (New cfg) now st = 0 := by
    unfold readMinuteReqs
    rw [hm]
    rfl
  have hrt : readMinuteTokens (New cfg) now st = 0 := by
    unfold readMinuteTokens
    rw [htk]
    rfl
  have hrd : readDayReqs (New cfg) now st = 0 := by
    unfold readDayReqs
    rw [hd]
    rfl
  have c1 : ¬(readMinuteReqs (New cfg) now st ≥ cfg.RequestsPerMinute) := by
    rw [hr]; omega
  have c2 : ¬(readMinuteTokens (New cfg) now st + tokens >
      cfg.TokensPerMinute) := by
    rw [hrt]; omega
  have c3 : ¬(readDayReqs (New cfg) now st ≥ cfg.RequestsPerDay) := by
    rw [hrd]; omega
  have hw := writePipeline_counters st (checkMinuteKey (New cfg) now)
    (checkMinuteTokenKey (New cfg) now) (checkDayKey (New cfg) now) tokens 0 0 0
    (checkKeys_ne_one_two _ now) (checkKeys_ne_one_three _ now)
    (checkKeys_ne_two_three _ now)
    (counterIs_zero_of_none _ hm) (counterIs_zero_of_none _ htk)
    (counterIs_zero_of_none _ hd)
  refine ⟨_, _, CheckAndIncrement_allowed (New cfg) now tokens st _ c1 c2 c3 hw,
    rfl, ?_, ?_, ?_, ?_⟩
  · show readMinuteTokens (New cfg) now st + tokens = tokens
    rw [hrt, zero_add]
  · show readMinuteTokens (New cfg) now st + tokens < 0
    rw [hrt, zero_add]
    exact hneg
  · rw [Store.update_other _ _ _ _ (checkKeys_ne_two_three _ now),
      Store.update_same, zero_add]
  · rw [Store.update_other _ _ _ _ (checkKeys_ne_two_three _ now),
      Store.update_same, zero_add]
    exact parseIntOrZero_intToDecimal tokens (by omega) (by omega)

/-- C1: `CheckAndIncrement` evaluates the three ceilings in a fixed order
with the first violation winning — minute-requests, then minute-tokens,
then day-requests — with the intentional asymmetry that the two
request-count checks reject already when the pre-increment count is at or
over the ceiling, while the token check rejects only when adding the cost
strictly exceeds the ceiling; consequently a token cost equal to exactly
the remaining budget is allowed while a request count exactly at its
ceiling is rejected. -/
theorem claim_C1_order_asymmetry (cfg : Config) (now : GoTime) (st : Store)
    (tokens : Int) :
    (readMinuteReqs (New cfg) now st ≥ cfg.RequestsPerMinute →
      ∃ res, CheckAndIncrement (New cfg) now tokens st none none =
          Except.ok (res, st) ∧ res.Allowed = false ∧
        res.RejectionReason = "requests per minute limit exceeded (" ++
          intToDecimal (readMinuteReqs (New cfg) now st) ++ "/" ++
          intToDecimal cfg.RequestsPerMinute ++ ")") ∧
    (readMinuteReqs (New cfg) now st < cfg.RequestsPerMinute →
      readMinuteTokens (New cfg) now st + tokens > cfg.TokensPerMinute →
      ∃ res, CheckAndIncrement (New cfg) now tokens st none none =
          Except.ok (res, st) ∧ res.Allowed = false ∧
        res.RejectionReason = "tokens per minute limit exceeded (" ++
          intToDecimal (readMinuteTokens (New cfg) now st) ++ "+" ++
          intToDecimal tokens ++ " > " ++
          intToDecimal cfg.TokensPerMinute ++ ")") ∧
    (readMinuteReqs (New cfg) now st < cfg.RequestsPerMinute →
      readMinuteTokens (New cfg) now st + tokens ≤ cfg.TokensPerMinute →
      readDayReqs (New cfg) now st ≥ cfg.RequestsPerDay →
      ∃ res, CheckAndIncrement (New cfg) now tokens st none none =
          Except.ok (res, st) ∧ res.Allowed = false ∧
        res.RejectionReason = "requests per day limit exceeded (" ++
          intToDecimal (readDayReqs (New cfg) now st) ++ "/" ++
          intToDecimal cfg.RequestsPerDay ++ ")") ∧
    (st (checkMinuteKey (New cfg) now) = none →
      st (checkMinuteTokenKey (New cfg) now) = none →
      st (checkDayKey (New cfg) now) = none →
      0 < cfg.RequestsPerMinute → tokens ≤ cfg.TokensPerMinute →
      0 < cfg.RequestsPerDay →
      ∃ res st2, CheckAndIncrement (New cfg) now tokens st none none =
          Except.ok (res, st2) ∧ res.Allowed = true) := by
  refine ⟨?_, ?_, ?_, ?_⟩
  · intro h
    exact ⟨_, CheckAndIncrement_minuteReject (New cfg) now tokens st none h,
      rfl, rfl⟩
  · intro h1 h2
    exact ⟨_, CheckAndIncrement_tokenReject (New cfg) now tokens st none
      (not_le.mpr h1) h2, rfl, rfl⟩
  · intro h1 h2 h3
    exact ⟨_, CheckAndIncrement_dayReject (New cfg) now tokens st none
      (not_le.mpr h1) (not_lt.mpr h2) h3, rfl, rfl⟩
  · intro ha hb hc hr ht hd
    have c1 : ¬(readMinuteReqs (New cfg) now st ≥ cfg.RequestsPerMinute) := by
      have : readMinuteReqs (New cfg) now st = 0 := by
        unfold readMinuteReqs; rw [ha]; rfl
      rw [this]; omega
    have c2 : ¬(readMinuteTokens (New cfg) now st + tokens >
        cfg.TokensPerMinute) := by
      have : readMinuteTokens (New cfg) now st = 0 := by
        unfold readMinuteTokens; rw [hb]; rfl
      rw [this]; omega
    have c3 : ¬(readDayReqs (New cfg) now st ≥ cfg.RequestsPerDay) := by
      have : readDayReqs (New cfg) now st = 0 := by
        unfold readDayReqs; rw [hc]; rfl
      rw [this]; omega
    have hw := writePipeline_counters st (checkMinuteKey (New cfg) now)
      (checkMinuteTokenKey (New cfg) now) (checkDayKey (New cfg) now)
      tokens 0 0 0
      (checkKeys_ne_one_two _ now) (checkKeys_ne_one_three _ now)
      (checkKeys_ne_two_three _ now)
      (counterIs_zero_of_none _ ha) (counterIs_zero_of_none _ hb)
      (counterIs_zero_of_none _ hc)
    exact ⟨_, _, CheckAndIncrement_allowed (New cfg) now tokens st _ c1 c2 c3 hw,
      rfl⟩

/-! ## Sequences of calls (claim C2) -/

theorem allowedTokens_cons (t : Int) (ts : List Int) (r : CheckResult)
    (rs : List CheckResult) :
    allowedTokens (t :: ts) (r :: rs) =
      (if r.Allowed then t else 0) + allowedTokens ts rs := rfl

theorem allowedCount_cons (r : CheckResult) (rs : List CheckResult) :
    allowedCount (r :: rs) = (if r.Allowed then 1 else 0) + allowedCount rs := by
  unfold allowedCount
  cases hA : r.Allowed <;>
    simp [List.filter_cons, hA] <;> push_cast <;> ring

theorem allowedCount_nil : allowedCount [] = 0 := rfl

theorem allowedCount_nonneg (rs : List CheckResult) : 0 ≤ allowedCount rs := by
  unfold allowedCount
  positivity

theorem callSeq_nil (rl : RateLimiter) (now : GoTime) (st : Store) :
    callSeq rl now [] st = (st, []) := rfl

theorem callSeq_cons_ok (rl : RateLimiter) (now : GoTime) (t : Int)
    (ts : List Int) (st : Store) (r : CheckResult) (st2 : Store)
    (h : CheckAndIncrement rl now t st none none = Except.ok (r, st2)) :
    callSeq rl now (t :: ts) st =
      ((callSeq rl now ts st2).1, r :: (callSeq rl now ts st2).2) := by
  show (match CheckAndIncrement rl now t st none none with
    | Except.ok (r, st2) =>
      ((callSeq rl now ts st2).1, r :: (callSeq rl now ts st2).2)
    | Except.error _ =>
      ((callSeq rl now ts st).1, (callSeq rl now ts st).2)) =
    ((callSeq rl now ts st2).1, r :: (callSeq rl now ts st2).2)
  rw [h]

theorem allowedCount_cons_false (r : CheckResult) (rs : List CheckResult)
    (h : r.Allowed = false) : allowedCount (r :: rs) = allowedCount rs := by
  rw [allowedCount_cons, h]
  simp

theorem allowedCount_cons_true (r : CheckResult) (rs : List CheckResult)
    (h : r.Allowed = true) : allowedCount (r :: rs) = 1 + allowedCount rs := by
  rw [allowedCount_cons, h]
  simp

theorem allowedTokens_cons_false (t : Int) (ts : List Int) (r : CheckResult)
    (rs : List CheckResult) (h : r.Allowed = false) :
    allowedTokens (t :: ts) (r :: rs) = allowedTokens ts rs := by
  rw [allowedTokens_cons, h]
  simp

theorem allowedTokens_cons_true (t : Int) (ts : List Int) (r : CheckResult)
    (rs : List CheckResult) (h : r.Allowed = true) :
    allowedTokens (t :: ts) (r :: rs) = t + allowedTokens ts rs := by
  rw [allowedTokens_cons, h]
  simp

theorem CheckAndIncrement_rejected_frame (rl : RateLimiter) (now : GoTime)
    (tokens : Int) (st st2 : Store) (res : CheckResult)
    (h : CheckAndIncrement rl now tokens st none none = Except.ok (res, st2))
    (hA : res.Allowed = false) : st2 = st := by
  by_cases h1 : readMinuteReqs rl now st ≥ rl.config.RequestsPerMinute
  · rw [CheckAndIncrement_minuteReject rl now tokens st none h1] at h
    simp only [Except.ok.injEq, Prod.mk.injEq] at h
    exact h.2.symm
  by_cases h2 : readMinuteTokens rl now st + tokens > rl.config.TokensPerMinute
  · rw [CheckAndIncrement_tokenReject rl now tokens st none h1 h2] at h
    simp only [Except.ok.injEq, Prod.mk.injEq] at h
    exact h.2.symm
  by_cases h3 : readDayReqs rl now st ≥ rl.config.RequestsPerDay
  · rw [CheckAndIncrement_dayReject rl now tokens st none h1 h2 h3] at h
    simp only [Except.ok.injEq, Prod.mk.injEq] at h
    exact h.2.symm
  cases hw : writePipeline st (checkMinuteKey rl now) (checkMinuteTokenKey rl now)
      (checkDayKey rl now) tokens with
  | mk werr st3 =>
    cases werr with
    | some e =>
      rw [CheckAndIncrement_writeCmdErr rl now tokens st e st3 h1 h2 h3 hw] at h
      simp at h
    | none =>
      rw [CheckAndIncrement_allowed rl now tokens st st3 h1 h2 h3 hw] at h
      simp only [Except.ok.injEq, Prod.mk.injEq] at h
      rw [← h.1] at hA
      simp at hA

/-- Invariant of a call sequence: starting from counters `a` (requests,
both windows) and `s` (tokens), every call returns a result, the counters
advance by exactly the allowed counts, and the minute-request counter
never exceeds the ceiling. -/
theorem callSeq_counters (cfg : Config) (now : GoTime)
    (hRPM : 0 ≤ cfg.RequestsPerMinute) :
    ∀ (ts : List Int) (st : Store) (a s : Int),
      (∀ x ∈ ts, -(2 ^ 31) ≤ x ∧ x < 2 ^ 31) →
      0 ≤ a → a ≤ cfg.RequestsPerMinute →
      a + (ts.length : Int) ≤ 2 ^ 31 →
      -(a * 2 ^ 31) ≤ s → s ≤ a * 2 ^ 31 →
      counterIs (st (checkMinuteKey (New cfg) now)) a →
      counterIs (st (checkMinuteTokenKey (New cfg) now)) s →
      counterIs (st (checkDayKey (New cfg) now)) a →
      ((callSeq (New cfg) now ts st).2.length = ts.length ∧
       counterIs ((callSeq (New cfg) now ts st).1 (checkMinuteKey (New cfg) now))
         (a + allowedCount (callSeq (New cfg) now ts st).2) ∧
       counterIs ((callSeq (New cfg) now ts st).1 (checkMinuteTokenKey (New cfg) now))
         (s + allowedTokens ts (callSeq (New cfg) now ts st).2) ∧
       counterIs ((callSeq (New cfg) now ts st).1 (checkDayKey (New cfg) now))
         (a + allowedCount (callSeq (New cfg) now ts st).2) ∧
       a + allowedCount (callSeq (New cfg) now ts st).2 ≤
         cfg.RequestsPerMinute) := by
  intro ts
  induction ts with
  | nil =>
    intro st a s hts ha0 haM hlen hs1 hs2 hc1 hc2 hc3
    rw [callSeq_nil]
    refine ⟨rfl, ?_, ?_, ?_, ?_⟩
    · rw [allowedCount_nil, add_zero]; exact hc1
    · show counterIs _ (s + allowedTokens [] [])
      rw [show allowedTokens [] [] = 0 from rfl, add_zero]; exact hc2
    · rw [allowedCount_nil, add_zero]; exact hc3
    · rw [allowedCount_nil, add_zero]; exact haM
  | cons t ts ih =>
    intro st a s hts ha0 haM hlen hs1 hs2 hc1 hc2 hc3
    have ht := hts t (List.mem_cons_self _ _)
    have hts2 : ∀ x ∈ ts, -(2 ^ 31) ≤ x ∧ x < 2 ^ 31 :=
      fun x hx => hts x (List.mem_cons_of_mem _ hx)
    have hr : readMinuteReqs (New cfg) now st = a := counterIs_read _ _ hc1
    have hrt : readMinuteTokens (New cfg) now st = s := counterIs_read _ _ hc2
    have hrd : readDayReqs (New cfg) now st = a := counterIs_read _ _ hc3
    have hlenc : ((t :: ts).length : Int) = (ts.length : Int) + 1 := by
      rw [List.length_cons]
      push_cast
      ring
    rw [hlenc] at hlen
    have hlen2 : a + (ts.length : Int) ≤ 2 ^ 31 := by omega
    by_cases d1 : a ≥ cfg.RequestsPerMinute
    · have hstep := CheckAndIncrement_minuteReject (New cfg) now t st none
        (by rw [hr]; exact d1)
      rw [callSeq_cons_ok (New cfg) now t ts st _ st hstep]
      obtain ⟨ihl, ih1, ih2, ih3, ih4⟩ :=
        ih st a s hts2 ha0 haM hlen2 hs1 hs2 hc1 hc2 hc3
      rw [allowedCount_cons_false _ _ rfl, allowedTokens_cons_false _ _ _ _ rfl]
      exact ⟨by simp [ihl], ih1, ih2, ih3, ih4⟩
    by_cases d2 : s + t > cfg.TokensPerMinute
    · have hstep := CheckAndIncrement_tokenReject (New cfg) now t st none
        (by rw [hr]; exact d1) (by rw [hrt]; exact d2)
      rw [callSeq_cons_ok (New cfg) now t ts st _ st hstep]
      obtain ⟨ihl, ih1, ih2, ih3, ih4⟩ :=
        ih st a s hts2 ha0 haM hlen2 hs1 hs2 hc1 hc2 hc3
      rw [allowedCount_cons_false _ _ rfl, allowedTokens_cons_false _ _ _ _ rfl]
      exact ⟨by simp [ihl], ih1, ih2, ih3, ih4⟩
    by_cases d3 : a ≥ cfg.RequestsPerDay
    · have hstep := CheckAndIncrement_dayReject (New cfg) now t st none
        (by rw [hr]; exact d1) (by rw [hrt]; exact d2) (by rw [hrd]; exact d3)
      rw [callSeq_cons_ok (New cfg) now t ts st _ st hstep]
      obtain ⟨ihl, ih1, ih2, ih3, ih4⟩ :=
        ih st a s hts2 ha0 haM hlen2 hs1 hs2 hc1 hc2 hc3
      rw [allowedCount_cons_false _ _ rfl, allowedTokens_cons_false _ _ _ _ rfl]
      exact ⟨by simp [ihl], ih1, ih2, ih3, ih4⟩
    · have c1 : ¬(readMinuteReqs (New cfg) now st ≥ cfg.RequestsPerMinute) := by
        rw [hr]; exact d1
      have c2 : ¬(readMinuteTokens (New cfg) now st + t >
          cfg.TokensPerMinute) := by
        rw [hrt]; exact d2
      have c3 : ¬(readDayReqs (New cfg) now st ≥ cfg.RequestsPerDay) := by
        rw [hrd]; exact d3
      have hw := writePipeline_counters st (checkMinuteKey (New cfg) now)
        (checkMinuteTokenKey (New cfg) now) (checkDayKey (New cfg) now)
        t a s a
        (checkKeys_ne_one_two _ now) (checkKeys_ne_one_three _ now)
        (checkKeys_ne_two_three _ now) hc1 hc2 hc3
      have hstep := CheckAndIncrement_allowed (New cfg) now t st _ c1 c2 c3 hw
      rw [callSeq_cons_ok (New cfg) now t ts st _ _ hstep]
      have hb1 : -(2 ^ 63 : Int) ≤ a + 1 := by omega
      have hb2 : a + 1 ≤ (2 ^ 63 : Int) - 1 := by omega
      have hmul : (a + 1) * (2 : Int) ^ 31 = a * 2 ^ 31 + 2 ^ 31 := by ring
      have hsb1 : -((a + 1) * 2 ^ 31) ≤ s + t := by rw [hmul]; omega
      have hsb2 : s + t ≤ (a + 1) * 2 ^ 31 := by rw [hmul]; omega
      have hb3 : -(2 ^ 63 : Int) ≤ s + t := by
        have h0 : (0 : Int) ≤ a * 2 ^ 31 := by positivity
        have h1 : a * (2 : Int) ^ 31 ≤ 2 ^ 31 * 2 ^ 31 := by
          have := mul_le_mul_of_nonneg_right (by omega : a ≤ (2 : Int) ^ 31)
            (by positivity : (0 : Int) ≤ 2 ^ 31)
          linarith
        norm_num at h1 ⊢
        omega
      have hb4 : s + t ≤ (2 ^ 63 : Int) - 1 := by
        have h1 : a * (2 : Int) ^ 31 ≤ 2 ^ 31 * 2 ^ 31 := by
          have := mul_le_mul_of_nonneg_right (by omega : a ≤ (2 : Int) ^ 31)
            (by positivity : (0 : Int) ≤ 2 ^ 31)
          linarith
        norm_num at h1 ⊢
        omega
      have hnew1 : counterIs
          ((((st.update (checkMinuteKey (New cfg) now)
              (some (intToDecimal (a + 1)))).update
              (checkMinuteTokenKey (New cfg) now)
              (some (intToDecimal (s + t)))).update
              (checkDayKey (New cfg) now) (some (intToDecimal (a + 1))))
            (checkMinuteKey (New cfg) now)) (a + 1) := by
        rw [Store.update_other _ _ _ _ (checkKeys_ne_one_three _ now),
          Store.update_other _ _ _ _ (checkKeys_ne_one_two _ now),
          Store.update_same]
        exact Or.inr ⟨rfl, hb1, hb2⟩
      have hnew2 : counterIs
          ((((st.update (checkMinuteKey (New cfg) now)
              (some (intToDecimal (a + 1)))).update
              (checkMinuteTokenKey (New cfg) now)
              (some (intToDecimal (s + t)))).update
              (checkDayKey (New cfg) now) (some (intToDecimal (a + 1))))
            (checkMinuteTokenKey (New cfg) now)) (s + t) := by
        rw [Store.update_other _ _ _ _ (checkKeys_ne_two_three _ now),
          Store.update_same]
        exact Or.inr ⟨rfl, hb3, hb4⟩
      have hnew3 : counterIs
          ((((st.update (checkMinuteKey (New cfg) now)
              (some (intToDecimal (a + 1)))).update
              (checkMinuteTokenKey (New cfg) now)
              (some (intToDecimal (s + t)))).update
              (checkDayKey (New cfg) now) (some (intToDecimal (a + 1))))
            (checkDayKey (New cfg) now)) (a + 1) := by
        rw [Store.update_same]
        exact Or.inr ⟨rfl, hb1, hb2⟩
      obtain ⟨ihl, ih1, ih2, ih3, ih4⟩ :=
        ih _ (a + 1) (s + t) hts2 (by omega) (by omega)
          (by omega) hsb1 hsb2 hnew1 hnew2 hnew3
      rw [allowedCount_cons_true _ _ rfl, allowedTokens_cons_true _ _ _ _ rfl]
      refine ⟨by simp [ihl], ?_, ?_, ?_, ?_⟩
      · rw [← add_assoc]
        exact ih1
      · rw [← add_assoc]
        exact ih2
      · rw [← add_assoc]
        exact ih3
      · rw [← add_assoc]
        exact ih4

/-- C2: for every config and single-threaded sequence of
`CheckAndIncrement` calls within fixed minute and day windows, starting
from empty window buckets, each stored counter equals exactly the number
of allowed calls (request counters) or the sum of token costs of allowed
calls (token counter); a rejected call leaves the store unchanged, and
the minute-request counter never exceeds `RequestsPerMinute`. -/
theorem claim_C2_sequence_counters (cfg : Config) (now : GoTime)
    (st0 : Store) (ts : List Int)
    (hRPM : 0 ≤ cfg.RequestsPerMinute)
    (hlen : (ts.length : Int) ≤ 2 ^ 31)
    (hts : ∀ x ∈ ts, -(2 ^ 31) ≤ x ∧ x < 2 ^ 31)
    (h1 : st0 (checkMinuteKey (New cfg) now) = none)
    (h2 : st0 (checkMinuteTokenKey (New cfg) now) = none)
    (h3 : st0 (checkDayKey (New cfg) now) = none) :
    (callSeq (New cfg) now ts st0).2.length = ts.length ∧
    parseIntOrZero (valOrEmpty ((callSeq (New cfg) now ts st0).1
        (checkMinuteKey (New cfg) now))) =
      allowedCount (callSeq (New cfg) now ts st0).2 ∧
    parseIntOrZero (valOrEmpty ((callSeq (New cfg) now ts st0).1
        (checkMinuteTokenKey (New cfg) now))) =
      allowedTokens ts (callSeq (New cfg) now ts st0).2 ∧
    parseIntOrZero (valOrEmpty ((callSeq (New cfg) now ts st0).1
        (checkDayKey (New cfg) now))) =
      allowedCount (callSeq (New cfg) now ts st0).2 ∧
    allowedCount (callSeq (New cfg) now ts st0).2 ≤ cfg.RequestsPerMinute ∧
    (∀ st tks res st2,
      CheckAndIncrement (New cfg) now tks st none none = Except.ok (res, st2) →
      res.Allowed = false → st2 = st) := by
  obtain ⟨l, c1, c2, c3, cb⟩ := callSeq_counters cfg now hRPM ts st0 0 0 hts
    (le_refl 0) hRPM (by omega) (by norm_num) (by norm_num)
    (counterIs_zero_of_none _ h1) (counterIs_zero_of_none _ h2)
    (counterIs_zero_of_none _ h3)
  rw [zero_add] at c1 c2 c3 cb
  exact ⟨l, counterIs_read _ _ c1, counterIs_read _ _ c2,
    counterIs_read _ _ c3, cb,
    fun st tks res st2 h hA =>
      CheckAndIncrement_rejected_frame (New cfg) now tks st st2 res h hA⟩

/-! ## Witnesses -/

theorem claim_C2_sequence_counters_witness :
    (0 : Int) ≤ 2 ∧
    ((([10, 20, 999, 5] : List Int).length : Int) ≤ 2 ^ 31) ∧
    (∀ x ∈ ([10, 20, 999, 5] : List Int), -(2 ^ 31) ≤ x ∧ x < 2 ^ 31) ∧
    ((callSeq (New ⟨2, 1000, 100⟩) ⟨432000, 0⟩ [10, 20, 999, 5]
      (fun _ => none)).2.length = 4) ∧
    parseIntOrZero (valOrEmpty ((callSeq (New ⟨2, 1000, 100⟩) ⟨432000, 0⟩
        [10, 20, 999, 5] (fun _ => none)).1
        (checkMinuteKey (New ⟨2, 1000, 100⟩) ⟨432000, 0⟩))) =
      allowedCount (callSeq (New ⟨2, 1000, 100⟩) ⟨432000, 0⟩
        [10, 20, 999, 5] (fun _ => none)).2 ∧
    allowedCount (callSeq (New ⟨2, 1000, 100⟩) ⟨432000, 0⟩
      [10, 20, 999, 5] (fun _ => none)).2 ≤ 2 := by
  have h := claim_C2_sequence_counters ⟨2, 1000, 100⟩ ⟨432000, 0⟩
    (fun _ => none) [10, 20, 999, 5] (by decide) (by decide) (by decide)
    rfl rfl rfl
  exact ⟨by decide, by decide, by decide, h.1, h.2.1, h.2.2.2.2.1⟩

theorem claim_C1_order_asymmetry_witness :
    readMinuteReqs (New ⟨0, 1000, 100⟩) ⟨432000, 0⟩ (fun _ => none) ≥
      (0 : Int) ∧
    (∃ res, CheckAndIncrement (New ⟨0, 1000, 100⟩) ⟨432000, 0⟩ 10
        (fun _ => none) none none = Except.ok (res, (fun _ => none : Store)) ∧
      res.Allowed = false ∧
      res.RejectionReason = "requests per minute limit exceeded (" ++
        intToDecimal (readMinuteReqs (New ⟨0, 1000, 100⟩) ⟨432000, 0⟩
          (fun _ => none)) ++ "/" ++ intToDecimal (0 : Int) ++ ")") :=
  ⟨by decide,
    (claim_C1_order_asymmetry ⟨0, 1000, 100⟩ ⟨432000, 0⟩ (fun _ => none) 10).1
      (by decide)⟩

theorem claim_C3_success_result_witness :
    ∃ res st2,
      CheckAndIncrement (New ⟨2, 1000, 100⟩) ⟨432000, 0⟩ 10 (fun _ => none)
        none none = Except.ok (res, st2) ∧
      res.Allowed = true ∧
      res.CurrentRequests =
        readMinuteReqs (New ⟨2, 1000, 100⟩) ⟨432000, 0⟩ (fun _ => none) + 1 := by
  refine ⟨_, _, rfl, rfl, ?_⟩
  exact (claim_C3_success_result (New ⟨2, 1000, 100⟩) ⟨432000, 0⟩ 10
    (fun _ => none) _ _ rfl rfl).1

theorem claim_C4_store_failure_witness :
    ((fun _ => none : Store) (checkMinuteKey (New ⟨2, 1000, 100⟩) ⟨432000, 0⟩) =
      none) ∧
    (CheckAndIncrement (New ⟨2, 1000, 100⟩) ⟨432000, 0⟩ 10 (fun _ => none)
      (some "connection refused") none =
        Except.error ("failed to get current values: connection refused")) ∧
    (∃ pr, CheckAndIncrement (New ⟨2, 1000, 100⟩) ⟨432000, 0⟩ 10
      (fun _ => none) none none = Except.ok pr) := by
  have h := claim_C4_store_failure (New ⟨2, 1000, 100⟩) ⟨432000, 0⟩ 10
    (fun _ => none) "connection refused"
  exact ⟨rfl, h.1, h.2.2.2 rfl rfl rfl⟩

theorem claim_C5_defensive_zero_witness :
    zeroCell ((fun _ => some "abc" : Store)
      (usageMinuteKey (New ⟨2, 1000, 100⟩) ⟨432000, 0⟩)) ∧
    GetCurrentUsage (New ⟨2, 1000, 100⟩) ⟨432000, 0⟩ (fun _ => some "abc")
      none = Except.ok ({ Allowed := false,
                          CurrentRequests := 0,
                          CurrentTokens := 0,
                          CurrentDayReqs := 0,
                          ResetMinute := untilNextMinute ⟨432000, 0⟩,
                          ResetDay := untilNextDay ⟨432000, 0⟩,
                          RejectionReason := "" },
        (fun _ => some "abc" : Store)) := by
  have hz : zeroCell (some "abc") := Or.inr ⟨"abc", rfl, by decide⟩
  exact ⟨hz,
    (claim_C5_defensive_zero (New ⟨2, 1000, 100⟩) ⟨432000, 0⟩
      (fun _ => some "abc") 10).2.2.1 hz hz hz⟩

theorem claim_C6_usage_pure_witness :
    ∃ r, GetCurrentUsage (New ⟨2, 1000, 100⟩) ⟨432000, 0⟩ (fun _ => some "7")
        none = Except.ok (r, (fun _ => some "7" : Store)) ∧
      r.Allowed = false ∧
      r.CurrentRequests = parseIntOrZero (valOrEmpty
        ((fun _ => some "7" : Store)
          (usageMinuteKey (New ⟨2, 1000, 100⟩) ⟨432000, 0⟩))) := by
  obtain ⟨r, h1, h2, h3, _⟩ :=
    claim_C6_usage_pure (New ⟨2, 1000, 100⟩) ⟨432000, 0⟩ (fun _ => some "7")
  exact ⟨r, h1, h2, h3⟩

theorem claim_C9_reset_witness :
    ∃ st2, Reset (New ⟨2, 1000, 100⟩) ⟨432000, 0⟩ (fun _ => some "5") none =
        Except.ok st2 ∧
      st2 ((New ⟨2, 1000, 100⟩).pfx ++ ":minute:" ++
        (⟨432000, 0⟩ : GoTime).formatMinute) = none ∧
      (∀ r st3, GetCurrentUsage (New ⟨2, 1000, 100⟩) ⟨432000, 0⟩ st2 none =
        Except.ok (r, st3) →
        r.CurrentRequests = 0 ∧ r.CurrentTokens = 0 ∧ r.CurrentDayReqs = 0) := by
  obtain ⟨st2, h1, h2, _, _, _, _, h7⟩ :=
    claim_C9_reset (New ⟨2, 1000, 100⟩) ⟨432000, 0⟩ (fun _ => some "5")
  exact ⟨st2, h1, h2, h7⟩

theorem claim_C10_negative_tokens_witness :
    ∃ res st2,
      CheckAndIncrement (New ⟨2, 1000, 100⟩) ⟨432000, 0⟩ (-5) (fun _ => none)
        none none = Except.ok (res, st2) ∧
      res.Allowed = true ∧ res.CurrentTokens = -5 ∧ res.CurrentTokens < 0 ∧
      st2 (checkMinuteTokenKey (New ⟨2, 1000, 100⟩) ⟨432000, 0⟩) =
        some (intToDecimal (-5)) ∧
      parseIntOrZero (valOrEmpty
        (st2 (checkMinuteTokenKey (New ⟨2, 1000, 100⟩) ⟨432000, 0⟩))) = -5 :=
  claim_C10_negative_tokens ⟨2, 1000, 100⟩ ⟨432000, 0⟩ (fun _ => none) (-5)
    rfl rfl rfl (by decide) (by decide) (by decide) (by decide) (by decide)

/-! ## Lexicographic machinery for the bucket strings (claims C7, C8) -/

theorem lex_append_right (l s1 s2 : List Char)
    (h : List.Lex (· < ·) s1 s2) :
    List.Lex (· < ·) (l ++ s1) (l ++ s2) := by
  induction l with
  | nil => exact h
  | cons c cs ih => exact List.Lex.cons ih

theorem lex_append_left :
    ∀ (l1 l2 s1 s2 : List Char), List.Lex (· < ·) l1 l2 →
      l1.length = l2.length →
      List.Lex (· < ·) (l1 ++ s1) (l2 ++ s2) := by
  intro l1 l2 s1 s2 h
  induction h with
  | nil => intro hlen; simp at hlen
  | cons h ih =>
    intro hlen
    simp only [List.length_cons, Nat.succ.injEq] at hlen
    exact List.Lex.cons (ih hlen)
  | rel h => intro _; exact List.Lex.rel h

theorem digitChar_lt_digitChar :
    ∀ a, a < 10 → ∀ b, b < 10 → a < b → digitChar a < digitChar b := by
  decide

theorem padDigits_lex_lt :
    ∀ w a b, a < b → b < 10 ^ w →
      List.Lex (· < ·) (padDigits w a) (padDigits w b)
  | 0, a, b, hab, hb => by
    exfalso
    simp at hb
    omega
  | w + 1, a, b, hab, hb => by
    have hbdiv : b / 10 < 10 ^ w := by
      rw [Nat.div_lt_iff_lt_mul (by omega)]
      calc b < 10 ^ (w + 1) := hb
        _ = 10 ^ w * 10 := by rw [Nat.pow_succ]
    have hle : a / 10 ≤ b / 10 := Nat.div_le_div_right (Nat.le_of_lt hab)
    rcases Nat.lt_or_ge (a / 10) (b / 10) with hlt | hge
    · exact lex_append_left _ _ _ _
        (padDigits_lex_lt w (a / 10) (b / 10) hlt hbdiv)
        (by rw [padDigits_length, padDigits_length])
    · have heq : a / 10 = b / 10 := Nat.le_antisymm hle hge
      have hmod : a % 10 < b % 10 := by omega
      show List.Lex (· < ·) (padDigits w (a / 10) ++ [digitChar (a % 10)])
        (padDigits w (b / 10) ++ [digitChar (b % 10)])
      rw [heq]
      exact lex_append_right _ _ _
        (List.Lex.rel (digitChar_lt_digitChar _ (Nat.mod_lt _ (by omega)) _
          (Nat.mod_lt _ (by omega)) hmod))

theorem goAppendInt_data (n w : Nat) (hw : 1 ≤ w) (h : n < 10 ^ w) :
    (goAppendInt n w).data = padDigits w n := by
  show (padDigits (max w (numDigits n)) n) = _
  rw [numDigits_eq, max_width_eq n w hw h]

theorem string_lt_of_lex (s t : String)
    (h : List.Lex (· < ·) s.data t.data) : s < t := by
  rw [String.lt_iff_toList_lt]
  exact h

theorem daysInMonth_le (y m : Nat) : daysInMonth y m ≤ 31 := by
  unfold daysInMonth
  split_ifs <;> omega

theorem daysInMonth_pos (y m : Nat) : 1 ≤ daysInMonth y m := by
  unfold daysInMonth
  split_ifs <;> omega

theorem fmtDate_data (d : Date) (hy : d.year < 10000) (hm : d.month < 100)
    (hd : d.day < 100) :
    (fmtDate d).data = padDigits 4 d.year ++
      (['-'] ++ (padDigits 2 d.month ++ (['-'] ++ padDigits 2 d.day))) := by
  unfold fmtDate
  simp only [String.data_append, List.append_assoc,
    goAppendInt_data d.year 4 (by omega) (by norm_num; omega),
    goAppendInt_data d.month 2 (by omega) (by norm_num; omega),
    goAppendInt_data d.day 2 (by omega) (by norm_num; omega)]

theorem fmtDate_length (d : Date) (hy : d.year < 10000) (hm : d.month < 100)
    (hd : d.day < 100) : (fmtDate d).data.length = 10 := by
  rw [fmtDate_data d hy hm hd]
  simp [padDigits_length]

theorem fmtDate_lex (d1 d2 : Date) (hy1 : d1.year < 10000)
    (hm1 : d1.month < 100) (hd1 : d1.day < 100) (hy2 : d2.year < 10000)
    (hm2 : d2.month < 100) (hd2 : d2.day < 100) (h : dateLt d1 d2) :
    List.Lex (· < ·) (fmtDate d1).data (fmtDate d2).data := by
  rw [fmtDate_data d1 hy1 hm1 hd1, fmtDate_data d2 hy2 hm2 hd2]
  rcases h with hy | ⟨hyeq, hm | ⟨hmeq, hd⟩⟩
  · exact lex_append_left (padDigits 4 d1.year) (padDigits 4 d2.year)
      (['-'] ++ (padDigits 2 d1.month ++ (['-'] ++ padDigits 2 d1.day)))
      (['-'] ++ (padDigits 2 d2.month ++ (['-'] ++ padDigits 2 d2.day)))
      (padDigits_lex_lt 4 d1.year d2.year hy (by norm_num; omega))
      (by rw [padDigits_length, padDigits_length])
  · rw [hyeq]
    apply lex_append_right (padDigits 4 d2.year)
    apply List.Lex.cons
    exact lex_append_left (padDigits 2 d1.month) (padDigits 2 d2.month)
      (['-'] ++ padDigits 2 d1.day) (['-'] ++ padDigits 2 d2.day)
      (padDigits_lex_lt 2 d1.month d2.month hm (by norm_num; omega))
      (by rw [padDigits_length, padDigits_length])
  · rw [hyeq, hmeq]
    apply lex_append_right (padDigits 4 d2.year)
    apply List.Lex.cons
    apply lex_append_right (padDigits 2 d2.month)
    apply List.Lex.cons
    exact padDigits_lex_lt 2 d1.day d2.day hd (by norm_num; omega)

theorem validDate_nextDate (d : Date) (h : ValidDate d) :
    ValidDate (nextDate d) := by
  obtain ⟨hy, hm1, hm2, hd1, hd2⟩ := h
  unfold nextDate
  split_ifs with h1 h2
  · exact ⟨hy, hm1, hm2, by show 1 ≤ d.day + 1; omega,
      by show d.day + 1 ≤ daysInMonth d.year d.month; omega⟩
  · exact ⟨hy, by show 1 ≤ d.month + 1; omega, by show d.month + 1 ≤ 12; omega,
      by show (1 : Nat) ≤ 1; omega,
      by show 1 ≤ daysInMonth d.year (d.month + 1)
         exact daysInMonth_pos _ _⟩
  · exact ⟨by show 1 ≤ d.year + 1; omega, by show (1 : Nat) ≤ 1; omega,
      by show (1 : Nat) ≤ 12; omega, by show (1 : Nat) ≤ 1; omega,
      by show 1 ≤ daysInMonth (d.year + 1) 1
         exact daysInMonth_pos _ _⟩

theorem validDate_dateOfDays : ∀ n, ValidDate (dateOfDays n)
  | 0 =>
    ⟨by show (1 : Nat) ≤ 1; omega, by show (1 : Nat) ≤ 1; omega,
      by show (1 : Nat) ≤ 12; omega, by show (1 : Nat) ≤ 1; omega,
      by show 1 ≤ daysInMonth 1 1
         exact daysInMonth_pos 1 1⟩
  | n + 1 => validDate_nextDate _ (validDate_dateOfDays n)

theorem dateLt_nextDate (d : Date) (h : ValidDate d) : dateLt d (nextDate d) := by
  unfold nextDate
  split_ifs with h1 h2
  · exact Or.inr ⟨rfl, Or.inr ⟨rfl, by show d.day < d.day + 1; omega⟩⟩
  · exact Or.inr ⟨rfl, Or.inl (by show d.month < d.month + 1; omega)⟩
  · exact Or.inl (by show d.year < d.year + 1; omega)

theorem dateLt_trans (a b c : Date) (h1 : dateLt a b) (h2 : dateLt b c) :
    dateLt a c := by
  unfold dateLt at h1 h2 ⊢
  omega

theorem dateOfDays_lt (m : Nat) : ∀ n, m < n → dateLt (dateOfDays m) (dateOfDays n)
  | 0, h => by omega
  | k + 1, h => by
    rcases Nat.lt_or_ge m k with h2 | h2
    · exact dateLt_trans _ _ _ (dateOfDays_lt m k h2)
        (dateLt_nextDate _ (validDate_dateOfDays k))
    · have hmk : m = k := by omega
      subst hmk
      exact dateLt_nextDate _ (validDate_dateOfDays m)

theorem dateLt_year_le (a b : Date) (h : dateLt a b) : a.year ≤ b.year := by
  unfold dateLt at h
  omega

theorem dateOfDays_year_le (m n : Nat) (h : m ≤ n) :
    (dateOfDays m).year ≤ (dateOfDays n).year := by
  rcases Nat.eq_or_lt_of_le h with rfl | h2
  · exact le_refl _
  · exact dateLt_year_le _ _ (dateOfDays_lt m n h2)

theorem dateOfDays_year_bound (n : Nat) (c : Nat)
    (hy : (dateOfDays n).year ≤ c) :
    (dateOfDays n).year < c + 1 ∧ (dateOfDays n).month < 100 ∧
      (dateOfDays n).day < 100 := by
  obtain ⟨h1, h2, h3, h4, h5⟩ := validDate_dateOfDays n
  have h6 := daysInMonth_le (dateOfDays n).year (dateOfDays n).month
  omega

theorem formatDay_lex (t1 t2 : GoTime) (h : dayIdx t1 < dayIdx t2)
    (hy : (dateOfDays (dayIdx t2)).year ≤ 9999) :
    List.Lex (· < ·) t1.formatDay.data t2.formatDay.data := by
  have hy1 : (dateOfDays (dayIdx t1)).year ≤ 9999 :=
    le_trans (dateOfDays_year_le _ _ (le_of_lt h)) hy
  obtain ⟨b1, b2, b3⟩ := dateOfDays_year_bound (dayIdx t1) 9999 hy1
  obtain ⟨c1, c2, c3⟩ := dateOfDays_year_bound (dayIdx t2) 9999 hy
  exact fmtDate_lex _ _ b1 b2 b3 c1 c2 c3 (dateOfDays_lt _ _ h)

theorem formatDay_lt (t1 t2 : GoTime) (h : dayIdx t1 < dayIdx t2)
    (hy : (dateOfDays (dayIdx t2)).year ≤ 9999) :
    t1.formatDay < t2.formatDay :=
  string_lt_of_lex _ _ (formatDay_lex t1 t2 h hy)

theorem formatMinute_data (t : GoTime) :
    t.formatMinute.data = (fmtDate (dateOfDays (t.lsecN / 86400))).data ++
      ([':'] ++ (padDigits 2 (t.lsecN % 86400 / 3600) ++
        ([':'] ++ padDigits 2 (t.lsecN % 86400 % 3600 / 60)))) := by
  unfold GoTime.formatMinute
  simp only [String.data_append, List.append_assoc,
    goAppendInt_data (t.lsecN % 86400 / 3600) 2 (by omega) (by omega),
    goAppendInt_data (t.lsecN % 86400 % 3600 / 60) 2 (by omega) (by omega)]

theorem dayIdx_eq_minuteIdx_div (t : GoTime) :
    dayIdx t = minuteIdx t / 1440 := by
  unfold dayIdx minuteIdx
  omega

theorem formatMinute_lt (t1 t2 : GoTime) (h : minuteIdx t1 < minuteIdx t2)
    (hy : (dateOfDays (dayIdx t2)).year ≤ 9999) :
    t1.formatMinute < t2.formatMinute := by
  apply string_lt_of_lex
  rw [formatMinute_data t1, formatMinute_data t2]
  have hday : dayIdx t1 ≤ dayIdx t2 := by
    rw [dayIdx_eq_minuteIdx_div, dayIdx_eq_minuteIdx_div]
    exact Nat.div_le_div_right (le_of_lt h)
  rcases Nat.lt_or_ge (dayIdx t1) (dayIdx t2) with hd | hd
  · have hy1 : (dateOfDays (dayIdx t1)).year ≤ 9999 :=
      le_trans (dateOfDays_year_le _ _ (le_of_lt hd)) hy
    obtain ⟨b1, b2, b3⟩ := dateOfDays_year_bound (dayIdx t1) 9999 hy1
    obtain ⟨c1, c2, c3⟩ := dateOfDays_year_bound (dayIdx t2) 9999 hy
    exact lex_append_left _ _ _ _
      (by
        show List.Lex (· < ·) (fmtDate (dateOfDays (dayIdx t1))).data
          (fmtDate (dateOfDays (dayIdx t2))).data
        exact fmtDate_lex _ _ b1 b2 b3 c1 c2 c3 (dateOfDays_lt _ _ hd))
      (by
        show (fmtDate (dateOfDays (dayIdx t1))).data.length =
          (fmtDate (dateOfDays (dayIdx t2))).data.length
        rw [fmtDate_length _ b1 b2 b3, fmtDate_length _ c1 c2 c3])
  · have hdeq : dayIdx t1 = dayIdx t2 := le_antisymm hday hd
    have hdeq2 : t1.lsecN / 86400 = t2.lsecN / 86400 := hdeq
    rw [hdeq2]
    apply lex_append_right ((fmtDate (dateOfDays (t2.lsecN / 86400))).data)
    apply List.Lex.cons
    have hq : t1.lsecN / 60 < t2.lsecN / 60 := h
    rcases Nat.lt_or_ge (t1.lsecN % 86400 / 3600) (t2.lsecN % 86400 / 3600)
      with hh | hh
    · exact lex_append_left (padDigits 2 (t1.lsecN % 86400 / 3600))
        (padDigits 2 (t2.lsecN % 86400 / 3600))
        ([':'] ++ padDigits 2 (t1.lsecN % 86400 % 3600 / 60))
        ([':'] ++ padDigits 2 (t2.lsecN % 86400 % 3600 / 60))
        (padDigits_lex_lt 2 _ _ hh (by omega))
        (by rw [padDigits_length, padDigits_length])
    · have hheq : t1.lsecN % 86400 / 3600 = t2.lsecN % 86400 / 3600 := by
        have hd86 : t1.lsecN / 86400 = t2.lsecN / 86400 := hdeq2
        omega
      have hmin : t1.lsecN % 86400 % 3600 / 60 < t2.lsecN % 86400 % 3600 / 60 := by
        have hd86 : t1.lsecN / 86400 = t2.lsecN / 86400 := hdeq2
        omega
      rw [hheq]
      apply lex_append_right (padDigits 2 (t2.lsecN % 86400 / 3600))
      apply List.Lex.cons
      exact padDigits_lex_lt 2 _ _ hmin (by omega)

theorem formatMinute_congr (t1 t2 : GoTime) (h : minuteIdx t1 = minuteIdx t2) :
    t1.formatMinute = t2.formatMinute := by
  have h60 : t1.lsecN / 60 = t2.lsecN / 60 := h
  have h86 : t1.lsecN / 86400 = t2.lsecN / 86400 := by omega
  have hh : t1.lsecN % 86400 / 3600 = t2.lsecN % 86400 / 3600 := by omega
  have hm : t1.lsecN % 86400 % 3600 / 60 = t2.lsecN % 86400 % 3600 / 60 := by
    omega
  unfold GoTime.formatMinute
  rw [h86, hh, hm]

theorem formatDay_congr (t1 t2 : GoTime) (h : dayIdx t1 = dayIdx t2) :
    t1.formatDay = t2.formatDay := by
  have h86 : t1.lsecN / 86400 = t2.lsecN / 86400 := h
  unfold GoTime.formatDay
  rw [h86]

theorem string_append_left_cancel (p a b : String) (h : p ++ a = p ++ b) :
    a = b := by
  have h2 := congrArg String.data h
  simp only [String.data_append] at h2
  exact String.toList_inj.mp (List.append_cancel_left h2)

theorem formatMinute_ne (t1 t2 : GoTime)
    (hy1 : (dateOfDays (dayIdx t1)).year ≤ 9999)
    (hy2 : (dateOfDays (dayIdx t2)).year ≤ 9999)
    (h : minuteIdx t1 ≠ minuteIdx t2) :
    t1.formatMinute ≠ t2.formatMinute := by
  rcases Nat.lt_or_ge (minuteIdx t1) (minuteIdx t2) with hlt | hge
  · exact ne_of_lt (formatMinute_lt t1 t2 hlt hy2)
  · have hlt : minuteIdx t2 < minuteIdx t1 := by omega
    exact (ne_of_lt (formatMinute_lt t2 t1 hlt hy1)).symm

theorem formatDay_ne (t1 t2 : GoTime)
    (hy1 : (dateOfDays (dayIdx t1)).year ≤ 9999)
    (hy2 : (dateOfDays (dayIdx t2)).year ≤ 9999)
    (h : dayIdx t1 ≠ dayIdx t2) :
    t1.formatDay ≠ t2.formatDay := by
  rcases Nat.lt_or_ge (dayIdx t1) (dayIdx t2) with hlt | hge
  · exact ne_of_lt (formatDay_lt t1 t2 hlt hy2)
  · have hlt : dayIdx t2 < dayIdx t1 := by omega
    exact (ne_of_lt (formatDay_lt t2 t1 hlt hy1)).symm

/-- C8: the three entry points derive identical keys for the same instant,
of exactly the documented forms with the prefix fixed by `New` to
gemini:ratelimit, the minute bucket in the 2006-01-02:15:04 layout and the
day bucket in the 2006-01-02 layout; bucket strings move in lock-step with
calendar time — equal buckets render equal strings, chronologically later
buckets render lexically greater strings — so keys of two distinct time
buckets never collide. -/
theorem claim_C8_keys (cfg : Config) (now t1 t2 : GoTime) :
    (checkMinuteKey (New cfg) now = usageMinuteKey (New cfg) now ∧
     checkMinuteTokenKey (New cfg) now = usageMinuteTokenKey (New cfg) now ∧
     checkDayKey (New cfg) now = usageDayKey (New cfg) now ∧
     resetKeys (New cfg) now =
       [checkMinuteKey (New cfg) now, checkMinuteTokenKey (New cfg) now,
        checkDayKey (New cfg) now]) ∧
    ((New cfg).pfx = "gemini:ratelimit" ∧
     checkMinuteKey (New cfg) now =
       "gemini:ratelimit" ++ ":minute:" ++ now.formatMinute ∧
     checkMinuteTokenKey (New cfg) now =
       "gemini:ratelimit" ++ ":tokens:minute:" ++ now.formatMinute ∧
     checkDayKey (New cfg) now =
       "gemini:ratelimit" ++ ":day:" ++ now.formatDay) ∧
    (minuteIdx t1 = minuteIdx t2 → t1.formatMinute = t2.formatMinute) ∧
    (dayIdx t1 = dayIdx t2 → t1.formatDay = t2.formatDay) ∧
    ((dateOfDays (dayIdx t2)).year ≤ 9999 →
      (minuteIdx t1 < minuteIdx t2 → t1.formatMinute < t2.formatMinute) ∧
      (dayIdx t1 < dayIdx t2 → t1.formatDay < t2.formatDay)) ∧
    ((dateOfDays (dayIdx t1)).year ≤ 9999 →
      (dateOfDays (dayIdx t2)).year ≤ 9999 →
      (minuteIdx t1 ≠ minuteIdx t2 →
        checkMinuteKey (New cfg) t1 ≠ checkMinuteKey (New cfg) t2 ∧
        checkMinuteTokenKey (New cfg) t1 ≠ checkMinuteTokenKey (New cfg) t2) ∧
      (dayIdx t1 ≠ dayIdx t2 →
        checkDayKey (New cfg) t1 ≠ checkDayKey (New cfg) t2)) := by
  refine ⟨⟨rfl, rfl, rfl, rfl⟩, ⟨rfl, rfl, rfl, rfl⟩,
    formatMinute_congr t1 t2, formatDay_congr t1 t2, ?_, ?_⟩
  · intro hy
    exact ⟨fun h => formatMinute_lt t1 t2 h hy,
      fun h => formatDay_lt t1 t2 h hy⟩
  · intro hy1 hy2
    constructor
    · intro hne
      constructor
      · intro h
        exact formatMinute_ne t1 t2 hy1 hy2 hne
          (string_append_left_cancel ((New cfg).pfx ++ ":minute:") _ _ h)
      · intro h
        exact formatMinute_ne t1 t2 hy1 hy2 hne
          (string_append_left_cancel ((New cfg).pfx ++ ":tokens:minute:") _ _ h)
    · intro hne h
      exact formatDay_ne t1 t2 hy1 hy2 hne
        (string_append_left_cancel ((New cfg).pfx ++ ":day:") _ _ h)

theorem claim_C8_keys_witness :
    checkMinuteKey (New ⟨2, 1000, 100⟩) ⟨432000, 0⟩ =
      usageMinuteKey (New ⟨2, 1000, 100⟩) ⟨432000, 0⟩ ∧
    (dateOfDays (dayIdx ⟨432060, 0⟩)).year ≤ 9999 ∧
    minuteIdx ⟨432000, 0⟩ < minuteIdx ⟨432060, 0⟩ ∧
    (⟨432000, 0⟩ : GoTime).formatMinute < (⟨432060, 0⟩ : GoTime).formatMinute ∧
    checkMinuteKey (New ⟨2, 1000, 100⟩) ⟨432000, 0⟩ ≠
      checkMinuteKey (New ⟨2, 1000, 100⟩) ⟨432060, 0⟩ := by
  have h := claim_C8_keys ⟨2, 1000, 100⟩ ⟨432000, 0⟩ ⟨432000, 0⟩ ⟨432060, 0⟩
  refine ⟨h.1.1, by decide, by decide, ?_, ?_⟩
  · exact (h.2.2.2.2.1 (by decide)).1 (by decide)
  · exact ((h.2.2.2.2.2 (by decide) (by decide)).1 (by decide)).1

/-- C7 counterexample: with zone offset +1h (abs = 432000 s = five days
after the zero time, local time 01:00), the day ceiling rejects and the
returned ResetDay is 86400 s (the UTC-anchored Truncate boundary), but
the day bucket used in the day key rolls over 82800 s later (local
midnight): the two day boundaries disagree, so the claim fails as stated
for arbitrary time zones. -/
theorem claim_C7_day_boundary_counterexample :
    (Except.toOption (CheckAndIncrement (New ⟨10, 10, 0⟩) ⟨432000, 3600⟩ 1
        (fun _ => none) none none)).map
      (fun p => (p.1.ResetDay, p.1.RejectionReason)) =
      some (86400, "requests per day limit exceeded (0/0)") ∧
    dayRolloverRemaining ⟨432000, 3600⟩ = 82800 ∧
    (GoTime.mk (432000 + 82799) 3600).formatDay =
      (GoTime.mk 432000 3600).formatDay ∧
    (GoTime.mk (432000 + 82800) 3600).formatDay ≠
      (GoTime.mk 432000 3600).formatDay ∧
    (86400 : Int) ≠ 82800 := by
  refine ⟨by decide, by decide, by decide, by decide, by decide⟩

/-- C7 amended: ResetDay is the time remaining to the next UTC-anchored
24-hour boundary of Truncate; exactly when the zone offset is a whole
multiple of 24 hours (UTC in particular) this equals the time at which
the day bucket used in the day key rolls over, every returned result
carries that value or the unset 0, the bucket is constant until the
rollover instant and changes at it. -/
theorem claim_C7_day_boundary_amended (rl : RateLimiter) (now : GoTime)
    (tokens : Int) (st : Store)
    (hoff : now.offset % 86400 = 0) (hl : 0 ≤ now.lsec) :
    untilNextDay now = dayRolloverRemaining now ∧
    (∀ res st2, CheckAndIncrement rl now tokens st none none =
        Except.ok (res, st2) →
      res.ResetDay = dayRolloverRemaining now ∨ res.ResetDay = 0) ∧
    (∀ s : Nat, (s : Int) < dayRolloverRemaining now →
      (GoTime.mk (now.abs + s) now.offset).formatDay = now.formatDay) ∧
    ((dateOfDays (dayIdx now + 1)).year ≤ 9999 →
      (GoTime.mk (now.abs + (dayRolloverRemaining now).toNat)
        now.offset).formatDay ≠ now.formatDay) := by
  have hl2 : 0 ≤ (now.abs : Int) + now.offset := hl
  have heq : untilNextDay now = dayRolloverRemaining now := by
    unfold untilNextDay dayRolloverRemaining GoTime.lsecN GoTime.lsec
    omega
  refine ⟨heq, ?_, ?_, ?_⟩
  · intro res st2 h
    by_cases h1 : readMinuteReqs rl now st ≥ rl.config.RequestsPerMinute
    · rw [CheckAndIncrement_minuteReject rl now tokens st none h1] at h
      simp only [Except.ok.injEq, Prod.mk.injEq] at h
      rw [← h.1]
      exact Or.inr rfl
    by_cases h2 : readMinuteTokens rl now st + tokens >
        rl.config.TokensPerMinute
    · rw [CheckAndIncrement_tokenReject rl now tokens st none h1 h2] at h
      simp only [Except.ok.injEq, Prod.mk.injEq] at h
      rw [← h.1]
      exact Or.inr rfl
    by_cases h3 : readDayReqs rl now st ≥ rl.config.RequestsPerDay
    · rw [CheckAndIncrement_dayReject rl now tokens st none h1 h2 h3] at h
      simp only [Except.ok.injEq, Prod.mk.injEq] at h
      rw [← h.1]
      exact Or.inl heq
    cases hw : writePipeline st (checkMinuteKey rl now)
        (checkMinuteTokenKey rl now) (checkDayKey rl now) tokens with
    | mk werr st3 =>
      cases werr with
      | some e =>
        rw [CheckAndIncrement_writeCmdErr rl now tokens st e st3 h1 h2 h3 hw]
          at h
        simp at h
      | none =>
        rw [CheckAndIncrement_allowed rl now tokens st st3 h1 h2 h3 hw] at h
        simp only [Except.ok.injEq, Prod.mk.injEq] at h
        rw [← h.1]
        exact Or.inl heq
  · intro s hs
    have hs2 : (s : Int) <
        86400 - ((((now.abs : Int) + now.offset).toNat % 86400 : Nat) : Int) :=
      hs
    have hdx : dayIdx (GoTime.mk (now.abs + s) now.offset) = dayIdx now := by
      show (((now.abs + s : Nat) : Int) + now.offset).toNat / 86400 =
        (((now.abs : Int) + now.offset).toNat) / 86400
      omega
    exact formatDay_congr _ _ hdx
  · intro hy
    have hdx : dayIdx (GoTime.mk (now.abs + (dayRolloverRemaining now).toNat)
        now.offset) = dayIdx now + 1 := by
      show (((now.abs + ((86400 : Int) -
          ((((now.abs : Int) + now.offset).toNat % 86400 : Nat) : Int)).toNat :
          Nat) : Int) + now.offset).toNat / 86400 =
        (((now.abs : Int) + now.offset).toNat) / 86400 + 1
      omega
    have hlt : dayIdx now < dayIdx (GoTime.mk
        (now.abs + (dayRolloverRemaining now).toNat) now.offset) := by
      rw [hdx]
      omega
    have hy2 : (dateOfDays (dayIdx (GoTime.mk
        (now.abs + (dayRolloverRemaining now).toNat) now.offset))).year ≤
        9999 := by
      rw [hdx]
      exact hy
    exact (ne_of_lt (formatDay_lt now _ hlt hy2)).symm

theorem claim_C7_day_boundary_amended_witness :
    (0 : Int) % 86400 = 0 ∧ (0 : Int) ≤ (GoTime.mk 435600 0).lsec ∧
    untilNextDay ⟨435600, 0⟩ = dayRolloverRemaining ⟨435600, 0⟩ ∧
    (GoTime.mk (435600 + (dayRolloverRemaining ⟨435600, 0⟩).toNat)
      0).formatDay ≠ (⟨435600, 0⟩ : GoTime).formatDay := by
  have h := claim_C7_day_boundary_amended (New ⟨2, 1000, 100⟩) ⟨435600, 0⟩ 1
    (fun _ => none) (by decide) (by decide)
  exact ⟨by decide, by decide, h.1, h.2.2.2 (by decide)⟩

end Ratelimiter
